import Mathlib

/-!
# govaluate: operator behaviours of the evaluation stage tree

A shallow embedding of `evaluationStage.go` and `convert.go`.  Operand values
(`interface{}` in the source) are a closed variant type, each operator
behaviour is a total function to an outcome that is either the four returned
values or a run-time panic, and the routines of the Go runtime the code calls
into (`float64` arithmetic, `strconv`, `fmt`, `encoding/json`, interface
comparison) are modelled next to them.  What `reflect` and `regexp` show of
host values, and `math.Pow`, are parameters of the behaviours that use them;
the stages that `swapWith` mutates live in a memory indexed by address.
-/

namespace Govaluate

/-! ## float64 values -/

/-- A `float64`.  `fin neg mant exp` is the finite value
`(-1)^neg * mant * 2^exp`, kept in the canonical IEEE 754 binary64 form:
`mant < 2^53`, `-1074 ≤ exp ≤ 971`, and `2^52 ≤ mant` unless `exp = -1074`
(subnormals and the two zeros, `mant = 0`). -/
inductive F64 where
  | nan : F64
  | inf (neg : Bool) : F64
  | fin (neg : Bool) (mant : Nat) (exp : Int) : F64
  deriving DecidableEq, Repr

/-- Number of binary digits of `n` added to `acc`, by halving; `fuel` bounds
the number of halvings. -/
def bitLenAux : Nat → Nat → Nat → Nat
  | 0, _, acc => acc
  | fuel + 1, n, acc => if n = 0 then acc else bitLenAux fuel (n / 2) (acc + 1)

/-- Number of binary digits of `n` (`0` for `0`). -/
def bitLen (n : Nat) : Nat := bitLenAux n n 0

/-- Whether the rational `n / d` is at least `2^k`. -/
def geTwoPow (n d : Nat) (k : Int) : Bool :=
  if 0 ≤ k then decide (d * 2 ^ k.toNat ≤ n) else decide (d ≤ n * 2 ^ (-k).toNat)

/-- The `float64` nearest to the rational `(-1)^neg * n / d` (`0 < d`), ties to
the even significand, overflowing to an infinity: IEEE 754 round-to-nearest-even,
which is how Go converts integers, parses literals and rounds sums. -/
def F64.round (neg : Bool) (n d : Nat) : F64 :=
  if n = 0 then .fin neg 0 (-1074) else
  let k : Int := (bitLen n : Int) - (bitLen d : Int)
  let lg : Int := if geTwoPow n d k then k else k - 1
  let e : Int := max (lg - 52) (-1074)
  let num := if 0 ≤ e then n else n * 2 ^ (-e).toNat
  let den := if 0 ≤ e then d * 2 ^ e.toNat else d
  let q := num / den
  let r := num % den
  let q1 := if den < 2 * r ∨ (2 * r = den ∧ q % 2 = 1) then q + 1 else q
  let m := if q1 = 2 ^ 53 then 2 ^ 52 else q1
  let e1 := if q1 = 2 ^ 53 then e + 1 else e
  if 971 < e1 then .inf neg else .fin neg m e1

/-- The conversion `float64(i)` of an integer. -/
def F64.ofInt (i : Int) : F64 := F64.round (decide (i < 0)) i.natAbs 1

/-- The signed significand of a finite value after aligning it to the
exponent `e` (`e` at most the value's own exponent). -/
def F64.aligned (neg : Bool) (mant : Nat) (exp e : Int) : Int :=
  let a : Int := (mant * 2 ^ (exp - e).toNat : Nat)
  if neg then -a else a

/-- The three-way comparison of two floats, `none` when either is a NaN
(unordered).  The two zeros compare equal. -/
def F64.cmp : F64 → F64 → Option Ordering
  | .nan, _ => none
  | _, .nan => none
  | .inf a, .inf b => some (if a = b then .eq else if a then .lt else .gt)
  | .inf a, .fin _ _ _ => some (if a then .lt else .gt)
  | .fin _ _ _, .inf b => some (if b then .gt else .lt)
  | .fin s1 m1 e1, .fin s2 m2 e2 =>
    let e := min e1 e2
    some (compare (F64.aligned s1 m1 e1 e) (F64.aligned s2 m2 e2 e))

/-- Go's `a < b` on `float64`. -/
def F64.lt (a b : F64) : Bool := F64.cmp a b == some .lt

/-- Go's `a <= b` on `float64`. -/
def F64.le (a b : F64) : Bool := F64.cmp a b == some .lt || F64.cmp a b == some .eq

/-- Go's `a > b` on `float64`. -/
def F64.gt (a b : F64) : Bool := F64.cmp a b == some .gt

/-- Go's `a >= b` on `float64`. -/
def F64.ge (a b : F64) : Bool := F64.cmp a b == some .gt || F64.cmp a b == some .eq

/-- Go's `a == b` on `float64`: a NaN equals nothing, `+0 == -0`. -/
def F64.eq (a b : F64) : Bool := F64.cmp a b == some .eq

/-- Go's `a + b` on `float64`: the exact sum rounded to nearest-even; an exact
zero sum is `-0` only when both operands are negative (zeros). -/
def F64.add : F64 → F64 → F64
  | .nan, _ => .nan
  | _, .nan => .nan
  | .inf a, .inf b => if a = b then .inf a else .nan
  | .inf a, .fin _ _ _ => .inf a
  | .fin _ _ _, .inf b => .inf b
  | .fin s1 m1 e1, .fin s2 m2 e2 =>
    let e := min e1 e2
    let s : Int := F64.aligned s1 m1 e1 e + F64.aligned s2 m2 e2 e
    if s = 0 then .fin (s1 && s2) 0 (-1074)
    else if 0 ≤ e then F64.round (decide (s < 0)) (s.natAbs * 2 ^ e.toNat) 1
    else F64.round (decide (s < 0)) s.natAbs (2 ^ (-e).toNat)

/-! ## strconv.ParseFloat -/

/-- The error values the code produces or passes on.  `numError` is the
`*strconv.NumError` returned by `strconv.ParseFloat` (function name, the text
that was parsed, `rangeErr` telling `ErrRange` from `ErrSyntax`); `message`
is an error created from a text (`errors.New`, `fmt.Errorf`). -/
inductive GoError where
  | numError (func : String) (num : String) (rangeErr : Bool) : GoError
  | message (text : String) : GoError
  deriving DecidableEq, Repr

/-- The code of `lower(c)` of strconv, `c | ('x' - 'X')`. -/
def lowerCode (c : Char) : Nat := c.toNat ||| 32

/-- Whether `c` is a decimal digit. -/
def isDecDigit (c : Char) : Bool := decide (48 ≤ c.toNat) && decide (c.toNat ≤ 57)

/-- Whether `lower(c)` lies in `'a'..'f'`. -/
def isHexLetter (c : Char) : Bool := decide (97 ≤ lowerCode c) && decide (lowerCode c ≤ 102)

/-- strconv's `commonPrefixLenIgnoreCase(s, pre)`, `pre` in lower case. -/
def commonPrefixLenIgnoreCase : List Char → List Char → Nat
  | c :: s, p :: pre =>
    let c1 := if 65 ≤ c.toNat ∧ c.toNat ≤ 90 then c.toNat + 32 else c.toNat
    if c1 = p.toNat then commonPrefixLenIgnoreCase s pre + 1 else 0
  | _, _ => 0

/-- The length of "inf" or "infinity" (ignoring case) that `s` starts with,
as strconv's `special` consumes it: 3, 8, or `none`. -/
def infinityLen (s : List Char) : Option Nat :=
  let n := commonPrefixLenIgnoreCase s "infinity".toList
  let n1 := if 3 < n ∧ n < 8 then 3 else n
  if n1 = 3 ∨ n1 = 8 then some n1 else none

/-- strconv's `special(s)`: the possibly signed text "inf" or "infinity" and
the unsigned text "nan", ignoring case, with the number of bytes consumed. -/
def special (s : List Char) : Option (F64 × Nat) :=
  match s with
  | [] => none
  | c :: rest =>
    if c = '+' ∨ c = '-' then
      (infinityLen rest).map fun n => (F64.inf (decide (c = '-')), n + 1)
    else if c = 'i' ∨ c = 'I' then
      (infinityLen s).map fun n => (F64.inf false, n)
    else if c = 'n' ∨ c = 'N' then
      if commonPrefixLenIgnoreCase s "nan".toList = 3 then some (F64.nan, 3) else none
    else none

/-- The running state of the mantissa loop of strconv's `readFloat`.  `mant`
holds every digit read after the leading zeros (`nd` of them), not only the
first 19: the conversion below rounds the exact value. -/
structure ReadState where
  mant : Nat
  nd : Nat
  dp : Int
  sawdot : Bool
  sawdigits : Bool
  underscores : Bool
  deriving Repr

/-- The mantissa loop of `readFloat`: digits, at most one point, underscores;
returns the state and the unread rest. -/
def readMantissa (hex : Bool) : List Char → ReadState → ReadState × List Char
  | [], st => (st, [])
  | c :: cs, st =>
    if c = '_' then readMantissa hex cs { st with underscores := true }
    else if c = '.' then
      if st.sawdot then (st, c :: cs)
      else readMantissa hex cs { st with sawdot := true, dp := st.nd }
    else if isDecDigit c then
      if c = '0' ∧ st.nd = 0 then
        readMantissa hex cs { st with sawdigits := true, dp := st.dp - 1 }
      else
        readMantissa hex cs { st with
          sawdigits := true, nd := st.nd + 1
          mant := st.mant * (if hex then 16 else 10) + (c.toNat - 48) }
    else if hex ∧ isHexLetter c then
      readMantissa hex cs { st with
        sawdigits := true, nd := st.nd + 1
        mant := st.mant * 16 + (lowerCode c - 97 + 10) }
    else (st, c :: cs)

/-- The digit loop of the exponent in `readFloat`: digits and underscores, the
value no longer accumulated once it has reached 10000.  Returns the value,
whether an underscore was seen, and the unread rest. -/
def readExpDigits : List Char → Nat → Bool → Nat × Bool × List Char
  | [], e, u => (e, u, [])
  | c :: cs, e, u =>
    if c = '_' then readExpDigits cs e true
    else if isDecDigit c then
      readExpDigits cs (if e < 10000 then e * 10 + (c.toNat - 48) else e) u
    else (e, u, c :: cs)

/-- strconv's `underscoreOK` after the optional sign and base prefix: `saw` is
the class of the last character (`0` a digit or the prefix, `1` an underscore,
`2` anything else, `3` the beginning). -/
def underscoreScan (hex : Bool) : List Char → Nat → Bool
  | [], saw => decide (saw ≠ 1)
  | c :: cs, saw =>
    if isDecDigit c ∨ (hex ∧ isHexLetter c) then underscoreScan hex cs 0
    else if c = '_' then
      if saw ≠ 0 then false else underscoreScan hex cs 1
    else if saw = 1 then false
    else underscoreScan hex cs 2

/-- strconv's `underscoreOK(s)`: underscores only between digits or between a
base prefix and a digit. -/
def underscoreOK (s : List Char) : Bool :=
  let s1 := match s with
    | c :: rest => if c = '-' ∨ c = '+' then rest else s
    | [] => s
  match s1 with
  | c0 :: c1 :: rest =>
    if c0 = '0' ∧ (lowerCode c1 = 98 ∨ lowerCode c1 = 111 ∨ lowerCode c1 = 120) then
      underscoreScan (decide (lowerCode c1 = 120)) rest 0
    else underscoreScan false s1 3
  | _ => underscoreScan false s1 3

/-- What `readFloat` reads off a well-formed number: the sign, the base, all
mantissa digits as a number, the exponent of the base unit (`10` for decimal,
`2` for hexadecimal) to scale it by, and the number of bytes consumed. -/
structure ReadFloat where
  neg : Bool
  hex : Bool
  mant : Nat
  exp : Int
  n : Nat
  deriving Repr

/-- strconv's `readFloat(s)`; `none` is its `ok = false`. -/
def readFloat (s : List Char) : Option ReadFloat :=
  match s with
  | [] => none
  | c :: rest =>
    let neg := decide (c = '-')
    let s1 := if c = '+' ∨ c = '-' then rest else s
    let hex := match s1 with
      | c0 :: c1 :: _ :: _ => decide (c0 = '0') && decide (lowerCode c1 = 120)
      | _ => false
    let s2 := if hex then s1.drop 2 else s1
    let (st, s3) := readMantissa hex s2 ⟨0, 0, 0, false, false, false⟩
    if !st.sawdigits then none else
    let dp0 : Int := if st.sawdot then st.dp else st.nd
    let dp : Int := if hex then dp0 * 4 else dp0
    let ndMant : Int := if hex then (st.nd : Int) * 4 else st.nd
    let fin (dp : Int) (underscores : Bool) (s4 : List Char) : Option ReadFloat :=
      let n := s.length - s4.length
      if underscores ∧ !underscoreOK (s.take n) then none
      else some ⟨neg, hex, st.mant, dp - ndMant, n⟩
    match s3 with
    | c :: s4 =>
      if lowerCode c = (if hex then 112 else 101) then
        match s4 with
        | [] => none
        | d :: s5 =>
          let esign : Int := if d = '-' then -1 else 1
          let s6 := if d = '+' ∨ d = '-' then s5 else s4
          match s6 with
          | [] => none
          | d1 :: _ =>
            if !isDecDigit d1 then none else
            let (e, u, s7) := readExpDigits s6 0 st.underscores
            fin (dp + (e : Int) * esign) u s7
      else if hex then none
      else fin dp st.underscores s3
    | [] => if hex then none else fin dp st.underscores s3

/-- The float nearest to `(-1)^neg * mant * base^exp`. -/
def F64.scale (neg : Bool) (mant base : Nat) (exp : Int) : F64 :=
  if 0 ≤ exp then F64.round neg (mant * base ^ exp.toNat) 1
  else F64.round neg mant (base ^ (-exp).toNat)

/-- Go's `strconv.ParseFloat(s, 64)` over the characters of `s`: decimal and
hexadecimal floating-point literals, "inf", "infinity" and "nan", the whole
text consumed, the exact value rounded to nearest-even (Go guarantees the
correctly rounded result), `ErrRange` when it overflows to an infinity and
`ErrSyntax` otherwise. -/
def parseFloatChars (text : String) (s : List Char) : Except GoError F64 :=
  match special s with
  | some (f, n) =>
    if n = s.length then .ok f else .error (.numError "ParseFloat" text false)
  | none =>
    match readFloat s with
    | none => .error (.numError "ParseFloat" text false)
    | some r =>
      if r.n ≠ s.length then .error (.numError "ParseFloat" text false) else
      match F64.scale r.neg r.mant (if r.hex then 2 else 10) r.exp with
      | .inf _ => .error (.numError "ParseFloat" text true)
      | f => .ok f

/-- Go's `strconv.ParseFloat(s, 64)`. -/
def parseFloat (s : String) : Except GoError F64 := parseFloatChars s s.toList

/-! ## strconv.FormatFloat and friends -/

/-- The digit search of strconv's `roundShortest`, on the value `v` and the
bounds `lo < v < hi` of the interval of reals that round to the float, all three
counted in units of `sn / sd`.  At each power `10^j`, from the highest down,
the multiples of `10^j` next to the value are tried: the one below (`t`) and
the one above (`t + 1`); the first level at which one of them lies in the
interval (bounds included when `inclusive`) gives the digits, the nearer of
the two when both do (the even one on a tie).  Returns the digits as a number
and `j`. -/
def shortestAux (v lo hi : Nat) (inclusive : Bool) (sn sd : Nat) : Nat → Int → Nat × Int
  | 0, j => (0, j)
  | fuel + 1, j =>
    let a := sn * 10 ^ (-j).toNat
    let b := sd * 10 ^ j.toNat
    let t := v * a / b
    let r := v * a % b
    let okdown : Bool := decide (lo * a < t * b) || (inclusive && decide (lo * a = t * b))
    let okup : Bool := decide ((t + 1) * b < hi * a) || (inclusive && decide ((t + 1) * b = hi * a))
    if okdown && okup then
      if b < 2 * r ∨ (2 * r = b ∧ t % 2 = 1) then (t + 1, j) else (t, j)
    else if okdown then (t, j)
    else if okup then (t + 1, j)
    else shortestAux v lo hi inclusive sn sd fuel (j - 1)

/-- The shortest decimal digits that identify the float `mant * 2^exp`
(`0 < mant`) among the floats of its format: the digits and the position of
the decimal point (the value is `0.digits * 10^dp`).  `boundary` tells that
the float below is only half as far away as the float above (the significand
is a power of two and the exponent is not the smallest). -/
def shortestDigits (mant : Nat) (exp : Int) (boundary : Bool) : List Char × Int :=
  let sn := 2 ^ (exp - 2).toNat
  let sd := 2 ^ (2 - exp).toNat
  let v := 4 * mant
  let lo := if boundary then v - 1 else v - 2
  let hi := v + 2
  let j0 : Int := (Nat.toDigits 10 (hi * sn / sd)).length
  let (t, j) := shortestAux v lo hi (decide (mant % 2 = 0)) sn sd (j0.toNat + (2 - exp).toNat + 1) j0
  let ds := Nat.toDigits 10 t
  (ds, (ds.length : Int) + j)

/-- The `%e` layout of strconv (`fmtE`) for shortest digits: `d.ddde±dd`. -/
def fmtE (neg : Bool) (ds : List Char) (dp : Int) : List Char :=
  let first := ds.headD '0'
  let rest := ds.drop 1
  let exp : Int := if ds.isEmpty then 0 else dp - 1
  let ex := Nat.toDigits 10 exp.natAbs
  (if neg then ['-'] else []) ++ [first] ++ (if rest.isEmpty then [] else '.' :: rest)
    ++ ['e', if exp < 0 then '-' else '+'] ++ (if exp.natAbs < 10 then '0' :: ex else ex)

/-- The `%f` layout of strconv (`fmtF`) for shortest digits, with
`max (nd - dp) 0` digits after the point. -/
def fmtF (neg : Bool) (ds : List Char) (dp : Int) : List Char :=
  let intPart :=
    if 0 < dp then ds.take dp.toNat ++ List.replicate (dp.toNat - ds.length) '0' else ['0']
  let frac := List.replicate (-dp).toNat '0' ++ ds.drop dp.toNat
  (if neg then ['-'] else []) ++ intPart ++ (if frac.isEmpty then [] else '.' :: frac)

/-- The layouts of `strconv.FormatFloat(f, fmt, -1, bits)` in use: `f` is
`'f'`, `g` is `'g'` (what `%v` prints), `json` is the layout of
`encoding/json` (`'f'`, or `'e'` with a trimmed exponent below `1e-6` and from
`1e21` on). -/
inductive FloatLayout where
  | f | g | json
  deriving DecidableEq, Repr

/-- The significand and exponent of a finite non-zero value in the float
format with `p` significand bits and least exponent `emin` (`p = 53`,
`emin = -1074` for `float64`; `p = 24`, `emin = -149` for `float32`), and
whether it sits at a power of two above the subnormal range. -/
def F64.decompose (mant : Nat) (exp : Int) (p : Nat) (emin : Int) : Nat × Int × Bool :=
  let e1 : Int := max ((bitLen mant : Int) + exp - p) emin
  let m1 := if exp ≤ e1 then mant / 2 ^ (e1 - exp).toNat else mant * 2 ^ (exp - e1).toNat
  (m1, e1, decide (m1 = 2 ^ (p - 1)) && decide (emin < e1))

/-- Go's `strconv.FormatFloat(f, fmt, -1, bits)`, the shortest text that
reads back as `f`; `bits32` selects the digits for a `float32`. -/
def formatFloat (x : F64) (layout : FloatLayout) (bits32 : Bool) : String :=
  match x with
  | .nan => "NaN"
  | .inf neg => if neg then "-Inf" else "+Inf"
  | .fin neg mant exp =>
    if mant = 0 then (if neg then "-0" else "0") else
    let (m1, e1, boundary) :=
      if bits32 then F64.decompose mant exp 24 (-149) else F64.decompose mant exp 53 (-1074)
    let (ds, dp) := shortestDigits m1 e1 boundary
    match layout with
    | .f => String.mk (fmtF neg ds dp)
    | .g =>
      if dp - 1 < -4 ∨ 6 ≤ dp - 1 then String.mk (fmtE neg ds dp) else String.mk (fmtF neg ds dp)
    | .json =>
      if dp - 1 < -6 ∨ 21 ≤ dp - 1 then
        let cs := fmtE neg ds dp
        let n := cs.length
        if 4 ≤ n ∧ cs.get? (n - 4) = some 'e' ∧ cs.get? (n - 2) = some '0' then
          String.mk (cs.take (n - 2) ++ cs.drop (n - 1))
        else String.mk cs
      else String.mk (fmtF neg ds dp)

/-! ## Operand values -/

/-- The built-in integer types `convert.go` switches on (`int` and `uint` are
64 bits wide). -/
inductive IntKind where
  | int | int8 | int16 | int32 | int64
  | uint | uint8 | uint16 | uint32 | uint64
  deriving DecidableEq, Repr

/-- A value of any other dynamic type (structures, arrays, maps, pointers,
named types, compiled patterns, functions), known through what the code can
observe of it: its dynamic type, which value of the type it is (`ident`), what
`==` gives when it is compared with the value `n` of the same type
(`equals n`), what `json.Marshal` makes of it (`none` when it fails) and how
`%v` prints it.  `equals n` is `none` when the comparison panics: always when
the type is not comparable, and for a comparable structure or array type when
the comparison reaches interface components that hold values of one
uncomparable type.  A value need not equal itself (a NaN component).  Methods
of the value that `fmt` and `encoding/json` call are taken to return. -/
structure Host where
  typeName : String
  ident : Nat
  equals : Nat → Option Bool
  json : Option String
  text : String

/-- An operand, an `interface{}` of the source.  Texts are Unicode strings
(Go strings and byte slices that hold valid UTF-8); an integer carries its
type and its value; a `float32` carries its value widened to `float64`;
`seq` is a non-nil `[]interface{}`. -/
inductive Value where
  | nil : Value
  | bool (b : Bool) : Value
  | str (s : String) : Value
  | float64 (f : F64) : Value
  | float32 (f : F64) : Value
  | int (kind : IntKind) (n : Int) : Value
  | bytes (text : String) : Value
  | seq (xs : List Value) : Value
  | host (h : Host) : Value

/-- The decimal text of an integer (`strconv.Itoa`, `%d`). -/
def itoa (n : Int) : String :=
  if n < 0 then String.mk ('-' :: Nat.toDigits 10 n.natAbs) else String.mk (Nat.toDigits 10 n.natAbs)

/-- The conversion `int(s)` to the 64-bit signed type: the value modulo `2^64`,
in `[-2^63, 2^63)`. -/
def toInt64 (n : Int) : Int := (n + 2 ^ 63) % 2 ^ 64 - 2 ^ 63

/-- The UTF-8 encoding of a character. -/
def utf8Bytes (c : Char) : List Nat :=
  let n := c.toNat
  if n < 128 then [n]
  else if n < 2048 then [192 + n / 64, 128 + n % 64]
  else if n < 65536 then [224 + n / 4096, 128 + n / 64 % 64, 128 + n % 64]
  else [240 + n / 262144, 128 + n / 4096 % 64, 128 + n / 64 % 64, 128 + n % 64]

/-- The bytes of a text. -/
def bytesOf (s : String) : List Nat := s.toList.flatMap utf8Bytes

/-- Lexicographic `<` on byte sequences. -/
def bytesLt : List Nat → List Nat → Bool
  | [], [] => false
  | [], _ :: _ => true
  | _ :: _, [] => false
  | a :: as, b :: bs => if a < b then true else if b < a then false else bytesLt as bs

/-- Go's `a < b` on strings: bytewise lexicographic. -/
def strLt (a b : String) : Bool := bytesLt (bytesOf a) (bytesOf b)

/-- A lower-case hexadecimal digit. -/
def hexDigit (n : Nat) : Char := "0123456789abcdef".toList.getD n '0'

/-- The escaping of one character inside a JSON string by `encoding/json`
(HTML-safe mode, which `json.Marshal` uses). -/
def jsonEscapeChar (c : Char) : List Char :=
  let n := c.toNat
  if c = '\\' ∨ c = '"' then ['\\', c]
  else if n = 8 then ['\\', 'b']
  else if n = 12 then ['\\', 'f']
  else if n = 10 then ['\\', 'n']
  else if n = 13 then ['\\', 'r']
  else if n = 9 then ['\\', 't']
  else if n < 32 ∨ c = '<' ∨ c = '>' ∨ c = '&' then
    ['\\', 'u', '0', '0', hexDigit (n / 16), hexDigit (n % 16)]
  else if n = 8232 ∨ n = 8233 then ['\\', 'u', '2', '0', '2', hexDigit (n % 16)]
  else [c]

/-- A text as a JSON string. -/
def jsonString (s : String) : String :=
  String.mk ('"' :: s.toList.flatMap jsonEscapeChar ++ ['"'])

/-- A digit of the standard base64 alphabet. -/
def base64Digit (n : Nat) : Char :=
  "ABCDEFGHIJKLMNOPQRSTUVWXYZabcdefghijklmnopqrstuvwxyz0123456789+/".toList.getD n '='

/-- Standard padded base64 (`base64.StdEncoding`), which `encoding/json` uses
for byte slices. -/
def base64 : List Nat → List Char
  | a :: b :: c :: rest =>
    base64Digit (a / 4) :: base64Digit (a % 4 * 16 + b / 16)
      :: base64Digit (b % 16 * 4 + c / 64) :: base64Digit (c % 64) :: base64 rest
  | [a, b] => [base64Digit (a / 4), base64Digit (a % 4 * 16 + b / 16), base64Digit (b % 16 * 4), '=']
  | [a] => [base64Digit (a / 4), base64Digit (a % 4 * 16), '=', '=']
  | [] => []

mutual
/-- Go's `json.Marshal(v)` as a text, `none` when it returns an error (a NaN
or an infinity, a host value that cannot be marshalled). -/
def jsonMarshal : Value → Option String
  | .nil => some "null"
  | .bool b => some (if b then "true" else "false")
  | .str s => some (jsonString s)
  | .float64 f =>
    match f with
    | .fin _ _ _ => some (formatFloat f .json false)
    | _ => none
  | .float32 f =>
    match f with
    | .fin _ _ _ => some (formatFloat f .json true)
    | _ => none
  | .int _ n => some (itoa n)
  | .bytes t => some (String.mk ('"' :: base64 (bytesOf t) ++ ['"']))
  | .seq xs => (jsonMarshalList xs).map fun body => "[" ++ body ++ "]"
  | .host h => h.json
/-- The elements of a JSON array, separated by commas. -/
def jsonMarshalList : List Value → Option String
  | [] => some ""
  | [x] => jsonMarshal x
  | x :: y :: rest =>
    match jsonMarshal x, jsonMarshalList (y :: rest) with
    | some a, some b => some (a ++ "," ++ b)
    | _, _ => none
end

mutual
/-- How `fmt` prints a value under `%v`. -/
def sprintV : Value → String
  | .nil => "<nil>"
  | .bool b => if b then "true" else "false"
  | .str s => s
  | .float64 f => formatFloat f .g false
  | .float32 f => formatFloat f .g true
  | .int _ n => itoa n
  | .bytes t => "[" ++ " ".intercalate ((bytesOf t).map fun b => String.mk (Nat.toDigits 10 b)) ++ "]"
  | .seq xs => "[" ++ sprintVList xs ++ "]"
  | .host h => h.text
/-- The elements of a slice under `%v`, separated by spaces. -/
def sprintVList : List Value → String
  | [] => ""
  | [x] => sprintV x
  | x :: y :: rest => sprintV x ++ " " ++ sprintVList (y :: rest)
end

/-- Go's `a == b` on two interface values: `some` of the result, or `none`
when the comparison panics.  Values of different dynamic types are unequal,
whatever the types; two values of one type are compared by that type's `==`:
two slices panic, and two host values of one type give what the left one
gives against the right one. -/
def ifaceEq : Value → Value → Option Bool
  | .nil, .nil => some true
  | .bool a, .bool b => some (a == b)
  | .str a, .str b => some (a == b)
  | .float64 a, .float64 b => some (F64.eq a b)
  | .float32 a, .float32 b => some (F64.eq a b)
  | .int k a, .int j b => some (decide (k = j) && decide (a = b))
  | .bytes _, .bytes _ => none
  | .seq _, .seq _ => none
  | .host a, .host b =>
    if a.typeName = b.typeName then a.equals b.ident else some false
  | _, _ => some false

/-! ## convert.go -/

/-- The text of a value (`convert2Str`). -/
def convert2Str (value : Value) : String :=
  match value with
  | .nil => ""
  | .str s => s
  | .float64 s => formatFloat s .f false
  | .float32 s => formatFloat s .f false
  | .int _ s => itoa (toInt64 s)
  | .bytes s => s
  | v => (jsonMarshal v).getD ""

/-- The number a value stands for (`convert2Float64`): floats and integers by
conversion, everything else by parsing its text. -/
def convert2Float64 (value : Value) : Except GoError F64 :=
  match value with
  | .float64 s => .ok s
  | .float32 s => .ok s
  | .int _ s => .ok (F64.ofInt s)
  | v => parseFloat (convert2Str v)

/-! ## evaluationStage.go -/

/-- The variable lookup handed to every operator (`Parameters`). -/
structure Parameters where
  Get : String → Except GoError Value

/-- What a panic carries: a run-time error of the Go runtime (a failed type
assertion, a comparison of uncomparable values), named by the start of its
message, or a value passed to `panic`. -/
inductive PanicValue where
  | runtimeError (text : String) : PanicValue
  | value (v : Value) : PanicValue

/-- What a call of an operator does: it returns its four results (the value,
the two carried stages, the error or `none` for a nil error), or it panics. -/
inductive Outcome where
  | returns (value leftStage rightStage : Value) (err : Option GoError) : Outcome
  | panics (p : PanicValue) : Outcome

/-- The panic of a failed type assertion `x.(T)`. -/
def assertionPanic : Outcome := .panics (.runtimeError "interface conversion")

/-- The panic of `==` on two values of one uncomparable type. -/
def uncomparablePanic : Outcome := .panics (.runtimeError "comparing uncomparable type")

/-- Modelled from the spec: the `OperatorSymbol` enumeration is declared
outside the two source files; these are the symbols the spec lists (arithmetic,
comparison, logical, bitwise, regex, membership, ternary, null-coalesce, member
access, function application, argument separation, and the value markers),
under the names the source gives to the five it mentions. -/
inductive OperatorSymbol where
  | VALUE | LITERAL | NOOP
  | EQ | NEQ | GT | LT | GTE | LTE | REQ | NREQ | IN
  | AND | OR
  | PLUS | MINUS | BITWISE_AND | BITWISE_OR | BITWISE_XOR | BITWISE_LSHIFT | BITWISE_RSHIFT
  | MULTIPLY | DIVIDE | MODULUS | EXPONENT
  | NEGATE | INVERT | BITWISE_NOT
  | TERNARY_TRUE | TERNARY_FALSE | COALESCE
  | FUNCTIONAL | ACCESS | SEPARATE
  deriving DecidableEq, Repr

/-- The behaviour of a stage (`evaluationOperator`). -/
abbrev evaluationOperator := Value → Value → Value → Value → Parameters → Outcome

/-- A check on one operand (`stageTypeCheck`). -/
abbrev stageTypeCheck := Value → Bool

/-- A check on both operands (`stageCombinedTypeCheck`). -/
abbrev stageCombinedTypeCheck := Value → Value → Bool

/-- A node of the stage tree (`evaluationStage`).  The children are pointers
(`*evaluationStage`): the address of a stage, `none` for nil; a nil behaviour
or check is `none`. -/
structure evaluationStage where
  symbol : OperatorSymbol
  leftStage : Option Nat
  rightStage : Option Nat
  operator : Option evaluationOperator
  leftTypeCheck : Option stageTypeCheck
  rightTypeCheck : Option stageTypeCheck
  typeCheck : Option stageCombinedTypeCheck
  typeErrorFormat : String

/-- The stages in memory, by address: what a `*evaluationStage` that is not
nil points to. -/
abbrev StageHeap := Nat → evaluationStage

/-- The assignment `*p = stage`. -/
def StageHeap.store (heap : StageHeap) (p : Nat) (stage : evaluationStage) : StageHeap :=
  fun q => if q = p then stage else heap q

/-- The panic of a nil pointer dereference. -/
def nilDereference : PanicValue :=
  .runtimeError "invalid memory address or nil pointer dereference"

/-- `setToNonStage`: the stage `this` points to takes the symbol, the
behaviour, the checks and the error format of `other`, which is passed by
value; its two children are not assigned. -/
def setToNonStage (heap : StageHeap) (this : Option Nat) (other : evaluationStage) :
    Except PanicValue StageHeap :=
  match this with
  | none => .error nilDereference
  | some p =>
    .ok (heap.store p
      ⟨other.symbol, (heap p).leftStage, (heap p).rightStage, other.operator,
        other.leftTypeCheck, other.rightTypeCheck, other.typeCheck, other.typeErrorFormat⟩)

/-- `swapWith`: `temp := *other`, then `other.setToNonStage(*this)`, then
`this.setToNonStage(temp)`. -/
def swapWith (heap : StageHeap) (this other : Option Nat) : Except PanicValue StageHeap :=
  match other with
  | none => .error nilDereference
  | some o =>
    let temp := heap o
    match this with
    | none => .error nilDereference
    | some t =>
      match setToNonStage heap other (heap t) with
      | .error p => .error p
      | .ok heap1 => setToNonStage heap1 this temp

/-- Whether the stage is one the evaluator may short-circuit
(`isShortCircuitable`): the `switch` on the symbol falls through the five
cases to `return true`. -/
def evaluationStage.isShortCircuitable (this : evaluationStage) : Bool :=
  match this.symbol with
  | .AND => true
  | .OR => true
  | .TERNARY_TRUE => true
  | .TERNARY_FALSE => true
  | .COALESCE => true
  | _ => false

/-- The interned boolean interface values (`boolIface`). -/
def boolIface (b : Bool) : Value := if b then .bool true else .bool false

/-- Whether the dynamic type is `string` (`isString`). -/
def isString (value : Value) : Bool :=
  match value with
  | .str _ => true
  | _ => false

/-- Whether the value converts to a number (`isNumber`). -/
def isNumber (value : Value) : Bool :=
  match convert2Float64 value with
  | .ok _ => true
  | .error _ => false

/-- The type check of addition (`additionTypeCheck`). -/
def additionTypeCheck (left right : Value) : Bool :=
  if isNumber left && isNumber right then true
  else if !isString left && !isString right then false
  else true

/-- The type check of the comparators (`comparatorTypeCheck`). -/
def comparatorTypeCheck (left right : Value) : Bool :=
  if isNumber left && isNumber right then true
  else if isString left && isString right then true
  else false

/-- The behaviour shared by the arithmetic and comparison operators once the
text case is dealt with: convert the left operand, then the right one, return
the first conversion error with a nil value, otherwise the value computed from
the two floats. -/
def onFloats (left right leftStage rightStage : Value) (f : F64 → F64 → Value) : Outcome :=
  match convert2Float64 left with
  | .error err => .returns .nil leftStage rightStage (some err)
  | .ok leftFloat64 =>
    match convert2Float64 right with
    | .error err => .returns .nil leftStage rightStage (some err)
    | .ok rightFloat64 => .returns (f leftFloat64 rightFloat64) leftStage rightStage none

/-- The behaviour of the guarded text case of the comparators: both operands
are asserted to be strings (`left.(string)`, `right.(string)`). -/
def onStrings (left right leftStage rightStage : Value) (f : String → String → Bool) : Outcome :=
  match left, right with
  | .str l, .str r => .returns (boolIface (f l r)) leftStage rightStage none
  | _, _ => assertionPanic

/-- `addStage`: concatenation of the `%v` texts if either operand is a string,
otherwise the sum of the two conversions. -/
def addStage (left right leftStage rightStage : Value) (_parameters : Parameters) : Outcome :=
  if isString left || isString right then
    .returns (.str (sprintV left ++ sprintV right)) leftStage rightStage none
  else onFloats left right leftStage rightStage fun l r => .float64 (F64.add l r)

/-- `gteStage`. -/
def gteStage (left right leftStage rightStage : Value) (_parameters : Parameters) : Outcome :=
  if isString left && isString right then
    onStrings left right leftStage rightStage fun l r => !strLt l r
  else onFloats left right leftStage rightStage fun l r => boolIface (F64.ge l r)

/-- `gtStage`. -/
def gtStage (left right leftStage rightStage : Value) (_parameters : Parameters) : Outcome :=
  if isString left && isString right then
    onStrings left right leftStage rightStage fun l r => strLt r l
  else onFloats left right leftStage rightStage fun l r => boolIface (F64.gt l r)

/-- `lteStage`. -/
def lteStage (left right leftStage rightStage : Value) (_parameters : Parameters) : Outcome :=
  if isString left && isString right then
    onStrings left right leftStage rightStage fun l r => !strLt r l
  else onFloats left right leftStage rightStage fun l r => boolIface (F64.le l r)

/-- `ltStage`. -/
def ltStage (left right leftStage rightStage : Value) (_parameters : Parameters) : Outcome :=
  if isString left && isString right then
    onStrings left right leftStage rightStage fun l r => strLt l r
  else onFloats left right leftStage rightStage fun l r => boolIface (F64.lt l r)

/-- `equalStage`: `reflect.DeepEqual` of two strings or of two floats is
their `==`. -/
def equalStage (left right leftStage rightStage : Value) (_parameters : Parameters) : Outcome :=
  if isString left && isString right then
    onStrings left right leftStage rightStage fun l r => decide (l = r)
  else onFloats left right leftStage rightStage fun l r => boolIface (F64.eq l r)

/-- `ternaryIfStage`: the condition is asserted to be a boolean. -/
def ternaryIfStage (left right leftStage rightStage : Value) (_parameters : Parameters) : Outcome :=
  match left with
  | .bool true => .returns right leftStage rightStage none
  | .bool false => .returns .nil leftStage rightStage none
  | _ => assertionPanic

/-- `ternaryElseStage`, also the behaviour of the null-coalesce operator. -/
def ternaryElseStage (left right leftStage rightStage : Value) (_parameters : Parameters) : Outcome :=
  match left with
  | .nil => .returns right leftStage rightStage none
  | _ => .returns left leftStage rightStage none

/-- `separatorStage`: the sequence carried in `leftStage` when there is one,
else a new one starting with `left`, extended by `right`. -/
def separatorStage (left right leftStage _rightStage : Value) (_parameters : Parameters) : Outcome :=
  let carried : Bool × List Value :=
    match leftStage with
    | .seq retT => (true, retT)
    | _ => (false, [])
  let isOk := carried.1
  let ret := carried.2
  let ret := if !isOk then ret ++ [left] else ret
  let ret := ret ++ [right]
  .returns (.seq ret) (.seq ret) .nil none

/-- The loop of `inStage`: `some true` at the first element equal to `left`,
`some false` when there is none, `none` when a comparison panics first. -/
def inStageLoop (left : Value) : List Value → Option Bool
  | [] => some false
  | value :: rest =>
    match ifaceEq left value with
    | none => none
    | some true => some true
    | some false => inStageLoop left rest

/-- `inStage`: the right operand is asserted to be a sequence. -/
def inStage (left right leftStage rightStage : Value) (_parameters : Parameters) : Outcome :=
  match right with
  | .seq xs =>
    match inStageLoop left xs with
    | some b => .returns (.bool b) leftStage rightStage none
    | none => uncomparablePanic
  | _ => assertionPanic

/-! ## Integer conversions and the bitwise operators -/

/-- The mathematical value of a finite float; `none` for a NaN and for the
infinities. -/
def F64.toRat : F64 → Option ℚ
  | .fin neg mant exp => some ((if neg then -1 else 1) * (mant : ℚ) * (2 : ℚ) ^ exp)
  | _ => none

/-- The value of a float on the rational line extended by `⊥` and `⊤` for the
two infinities; `none` for a NaN, which has no place in the order. -/
def F64.toExt : F64 → Option (WithBot (WithTop ℚ))
  | .nan => none
  | .inf neg => some (if neg then ⊥ else ⊤)
  | .fin neg mant exp =>
    some (((if neg then -1 else 1) * (mant : ℚ) * (2 : ℚ) ^ exp : ℚ) : WithTop ℚ)

/-- The magnitude of a finite float truncated to a whole number. -/
def F64.truncNat (mant : Nat) (exp : Int) : Nat :=
  if 0 ≤ exp then mant * 2 ^ exp.toNat else mant / 2 ^ (-exp).toNat

/-- Go's `int64(f)`: the value truncated toward zero.  What a NaN, an infinity
or a value outside the range of `int64` converts to is left to the
implementation by Go; `-2^63` is what amd64 produces. -/
def F64.toInt64 : F64 → Int
  | .fin neg mant exp =>
    let t : Int := F64.truncNat mant exp
    let i : Int := if neg then -t else t
    if -(2 ^ 63) ≤ i ∧ i < 2 ^ 63 then i else -(2 ^ 63)
  | _ => -(2 ^ 63)

/-- Go's `uint64(f)`: the value truncated toward zero.  What a value outside
the range of `uint64` (a negative one, a NaN, an infinity) converts to is left
to the implementation by Go; the result here is what amd64 produces, the
two's-complement pattern of `int64(f)` for a negative `f` and `2^63` for the
rest. -/
def F64.toUint64 : F64 → Nat
  | .fin neg mant exp =>
    let t := F64.truncNat mant exp
    if neg then (if t ≤ 2 ^ 63 then (2 ^ 64 - t) % 2 ^ 64 else 2 ^ 63)
    else if t < 2 ^ 64 then t else 2 ^ 63
  | _ => 2 ^ 63

/-- The 64-bit two's-complement pattern of an `int64`. -/
def bits64 (i : Int) : Nat := (i % 2 ^ 64).toNat

/-- Go's `^x` on `int64`: every bit flipped. -/
def not64 (x : Int) : Int := toInt64 (Nat.xor (bits64 x) (2 ^ 64 - 1))

/-- Go's `x & y` on `int64`. -/
def and64 (x y : Int) : Int := toInt64 (Nat.land (bits64 x) (bits64 y))

/-- Go's `x | y` on `int64`. -/
def or64 (x y : Int) : Int := toInt64 (Nat.lor (bits64 x) (bits64 y))

/-- Go's `x ^ y` on `int64`. -/
def xor64 (x y : Int) : Int := toInt64 (Nat.xor (bits64 x) (bits64 y))

/-- Go's `x << k` on `uint64`: the low 64 bits of the shifted pattern, `0` for
a count of 64 or more. -/
def shl64 (x k : Nat) : Nat := if k < 64 then x * 2 ^ k % 2 ^ 64 else 0

/-- Go's `x >> k` on `uint64`, `0` for a count of 64 or more. -/
def shr64 (x k : Nat) : Nat := if k < 64 then x / 2 ^ k else 0

/-- The behaviour shared by the binary bitwise operators and the shifts:
both operands are converted, left first; a conversion error is returned with
a nil value and the carried stages; on success the value comes with `right`
and `leftStage` in the second and third result. -/
def onFloatsBitwise (left right leftStage rightStage : Value) (f : F64 → F64 → Value) :
    Outcome :=
  match convert2Float64 left with
  | .error err => .returns .nil leftStage rightStage (some err)
  | .ok leftFloat64 =>
    match convert2Float64 right with
    | .error err => .returns .nil leftStage rightStage (some err)
    | .ok rightFloat64 => .returns (f leftFloat64 rightFloat64) right leftStage none

/-- `bitwiseNotStage`: `float64(^int64(rightFloat64))`. -/
def bitwiseNotStage (_left right leftStage rightStage : Value) (_parameters : Parameters) :
    Outcome :=
  match convert2Float64 right with
  | .error err => .returns .nil leftStage rightStage (some err)
  | .ok rightFloat64 =>
    .returns (.float64 (F64.ofInt (not64 (F64.toInt64 rightFloat64)))) leftStage rightStage none

/-- `bitwiseOrStage`: `float64(int64(leftFloat64) | int64(rightFloat64))`. -/
def bitwiseOrStage (left right leftStage rightStage : Value) (_parameters : Parameters) :
    Outcome :=
  onFloatsBitwise left right leftStage rightStage fun l r =>
    .float64 (F64.ofInt (or64 (F64.toInt64 l) (F64.toInt64 r)))

/-- `bitwiseAndStage`: `float64(int64(leftFloat64) & int64(rightFloat64))`. -/
def bitwiseAndStage (left right leftStage rightStage : Value) (_parameters : Parameters) :
    Outcome :=
  onFloatsBitwise left right leftStage rightStage fun l r =>
    .float64 (F64.ofInt (and64 (F64.toInt64 l) (F64.toInt64 r)))

/-- `bitwiseXORStage`: `float64(int64(leftFloat64) ^ int64(rightFloat64))`. -/
def bitwiseXORStage (left right leftStage rightStage : Value) (_parameters : Parameters) :
    Outcome :=
  onFloatsBitwise left right leftStage rightStage fun l r =>
    .float64 (F64.ofInt (xor64 (F64.toInt64 l) (F64.toInt64 r)))

/-- `leftShiftStage`: `float64(uint64(leftFloat64) << uint64(rightFloat64))`. -/
def leftShiftStage (left right leftStage rightStage : Value) (_parameters : Parameters) :
    Outcome :=
  onFloatsBitwise left right leftStage rightStage fun l r =>
    .float64 (F64.ofInt (shl64 (F64.toUint64 l) (F64.toUint64 r)))

/-- `rightShiftStage`: `float64(uint64(leftFloat64) >> uint64(rightFloat64))`. -/
def rightShiftStage (left right leftStage rightStage : Value) (_parameters : Parameters) :
    Outcome :=
  onFloatsBitwise left right leftStage rightStage fun l r =>
    .float64 (F64.ofInt (shr64 (F64.toUint64 l) (F64.toUint64 r)))

/-- The least value of an integer type. -/
def IntKind.min : IntKind → Int
  | .int => -(2 ^ 63) | .int8 => -(2 ^ 7) | .int16 => -(2 ^ 15) | .int32 => -(2 ^ 31)
  | .int64 => -(2 ^ 63)
  | _ => 0

/-- The greatest value of an integer type. -/
def IntKind.max : IntKind → Int
  | .int => 2 ^ 63 - 1 | .int8 => 2 ^ 7 - 1 | .int16 => 2 ^ 15 - 1 | .int32 => 2 ^ 31 - 1
  | .int64 => 2 ^ 63 - 1
  | .uint => 2 ^ 64 - 1 | .uint8 => 2 ^ 8 - 1 | .uint16 => 2 ^ 16 - 1 | .uint32 => 2 ^ 32 - 1
  | .uint64 => 2 ^ 64 - 1

/-- Whether the integer is a value of the type. -/
def IntKind.inRange (k : IntKind) (n : Int) : Prop := k.min ≤ n ∧ n ≤ k.max

/-! ## Host functions -/

/-- What a call of a host function does: it returns a value and an error
(`none` for a nil error), or it panics. -/
inductive CallResult where
  | returns (value : Value) (err : Option GoError) : CallResult
  | panics (p : PanicValue) : CallResult

/-- The results of a call handed on as the results of a stage, with the
carried stages next to them. -/
def CallResult.toOutcome (res : CallResult) (leftStage rightStage : Value) : Outcome :=
  match res with
  | .returns value err => .returns value leftStage rightStage err
  | .panics p => .panics p

/-- Modelled from the spec: the type `ExpressionFunction` is declared outside
the two source files; it is a variadic callable from values to a value and an
error. -/
abbrev ExpressionFunction := List Value → CallResult

/-- `makeFunctionStage`: the function is called without arguments when
`right` is nil, with the elements of `right` when it is a `[]interface{}`,
and with `right` alone otherwise. -/
def makeFunctionStage (function : ExpressionFunction) : evaluationOperator :=
  fun _left right leftStage rightStage _parameters =>
    match right with
    | .nil => (function []).toOutcome leftStage rightStage
    | .seq args => (function args).toOutcome leftStage rightStage
    | _ => (function [right]).toOutcome leftStage rightStage

/-! ## Accessors -/

/-- A parameter type of a method as `typeConvertParams` sees it: the name of
its kind (`t.Kind().String()`) and what `p.Convert(t)` makes of an argument,
`none` when `Convert` panics. -/
structure GoType where
  kind : String
  convert : Value → Option Value

/-- What `method.Call(params)` does: it returns the results of the method
(each as the value `returned[i].Interface()`), or it panics. -/
inductive MethodResult where
  | returns (values : List Value) : MethodResult
  | panics (p : PanicValue) : MethodResult

/-- A method found by `MethodByName`: its parameter types (`method.Type()`)
and its behaviour under `Call`. -/
structure Method where
  ins : List GoType
  call : List Value → MethodResult

/-- A field found by `FieldByName`: `Interface()` yields the value of an
exported field and panics on an unexported one. -/
inductive Field where
  | exported (value : Value) : Field
  | unexported : Field

/-- What `reflect` shows of a value: a structure with its fields and the
methods of its type, a pointer with its pointee (`none` for a nil pointer) and
the methods of the pointer type, a map with its entries under text keys
(`keyMismatch` is the name of the key type when a `string` is not assignable
to it, so that `MapIndex` panics), or a value of another kind. -/
inductive Shape where
  | struct (fields : String → Option Field) (methods : String → Option Method) : Shape
  | ptr (elem : Option Value) (methods : String → Option Method) : Shape
  | map (keyMismatch : Option String) (entries : String → Option Value) : Shape
  | other (kind : String) : Shape

/-- The view the `reflect` package gives of host values: the shape of each,
and the error it is when its type implements `error` (`errIface.(error)`). -/
structure Reflection where
  shape : Host → Shape
  asError : Host → Option GoError

/-- The name of an integer kind (`Kind.String`). -/
def IntKind.name : IntKind → String
  | .int => "int" | .int8 => "int8" | .int16 => "int16" | .int32 => "int32" | .int64 => "int64"
  | .uint => "uint" | .uint8 => "uint8" | .uint16 => "uint16" | .uint32 => "uint32"
  | .uint64 => "uint64"

/-- The shape of `reflect.ValueOf(value)`; only host values are structures,
pointers or maps. -/
def shapeOf (R : Reflection) (value : Value) : Shape :=
  match value with
  | .nil => .other "invalid"
  | .bool _ => .other "bool"
  | .str _ => .other "string"
  | .float64 _ => .other "float64"
  | .float32 _ => .other "float32"
  | .int k _ => .other k.name
  | .bytes _ => .other "slice"
  | .seq _ => .other "slice"
  | .host h => R.shape h

/-- The name of the kind of `reflect.ValueOf(value)`. -/
def kindName (R : Reflection) (value : Value) : String :=
  match shapeOf R value with
  | .struct _ _ => "struct"
  | .ptr _ _ => "ptr"
  | .map _ _ => "map"
  | .other kind => kind

/-- The assertion `errIface.(error)` together with `errIface != nil`. -/
def asError (R : Reflection) (value : Value) : Option GoError :=
  match value with
  | .host h => R.asError h
  | _ => none

/-- The panic of `reflect.Value.Type` on the zero `reflect.Value`, which is
what `reflect.ValueOf(nil)` is: a `*reflect.ValueError`, not a string. -/
def zeroValuePanic : PanicValue :=
  .value (.host ⟨"*reflect.ValueError", 0, fun n => some (decide (n = 0)),
    some "\x7b\"Method\":\"reflect.Value.Type\",\"Kind\":0\x7d",
    "reflect: call of reflect.Value.Type on zero Value"⟩)

/-- What `typeConvertParams` comes to: the converted arguments, an error with
its message, or a panic. -/
inductive Converted where
  | ok (params : List Value) : Converted
  | error (text : String) : Converted
  | panics (p : PanicValue) : Converted

/-- `typeConvertParam`: `p.Convert(t)`, a panic of which is recovered into an
error that names the two kinds. -/
def typeConvertParam (R : Reflection) (p : Value) (t : GoType) : Except String Value :=
  match t.convert p with
  | some ret => .ok ret
  | none =>
    .error ("Argument type conversion failed: failed to convert '" ++ kindName R p
      ++ "' to '" ++ t.kind ++ "'")

/-- The loop of `typeConvertParams` over the parameters: `p.Type()` panics on
the zero value of a nil argument; an argument whose kind differs from the
parameter's is converted, the first failure ending the loop. -/
def typeConvertLoop (R : Reflection) : List GoType → List Value → Converted
  | t :: ts, p :: ps =>
    match p with
    | .nil => .panics zeroValuePanic
    | _ =>
      match (if t.kind ≠ kindName R p then typeConvertParam R p t else .ok p) with
      | .error err => .error err
      | .ok np =>
        match typeConvertLoop R ts ps with
        | .ok rest => .ok (np :: rest)
        | other => other
  | _, _ => .ok []

/-- `typeConvertParams`: the number of arguments must be the number of
parameters. -/
def typeConvertParams (R : Reflection) (method : Method) (params : List Value) : Converted :=
  let numIn := method.ins.length
  let numParams := params.length
  if numIn ≠ numParams then
    if numIn > numParams then
      .error ("Too few arguments to parameter call: got " ++ itoa numParams
        ++ " arguments, expected " ++ itoa numIn)
    else
      .error ("Too many arguments to parameter call: got " ++ itoa numParams
        ++ " arguments, expected " ++ itoa numIn)
  else typeConvertLoop R method.ins params

/-- Modelled from the spec: `castToFloat64` is defined outside the two source
files; it is the numeric normalization of the resolved value, which turns a
value of an integer type or a `float32` into a `float64` and leaves every
other value as it is. -/
def castToFloat64 (value : Value) : Value :=
  match value with
  | .int _ n => .float64 (F64.ofInt n)
  | .float32 f => .float64 f
  | v => v

/-- The pointer step of the accessor loop: the methods of the pointer type
when the value is a pointer (`corePtrVal`, else invalid), and the shape of
the value or of its pointee (`coreValue`). -/
def resolvePointer (R : Reflection) (value : Value) :
    Option (String → Option Method) × Shape :=
  match shapeOf R value with
  | .ptr elem methods =>
    (some methods, match elem with
      | some v => shapeOf R v
      | none => .other "invalid")
  | shape => (none, shape)

/-- `MethodByName` on the structure, then on the pointer when there is one. -/
def lookupMethod (methods : String → Option Method)
    (ptrMethods : Option (String → Option Method)) (name : String) : Option Method :=
  match methods name with
  | some method => some method
  | none =>
    match ptrMethods with
    | some pm => pm name
    | none => none

/-- The arguments of a method call, from the right-hand value. -/
def givenParams (right : Value) : List Value :=
  match right with
  | .seq given => given
  | .nil => []
  | v => [v]

/-- The error that ends the loop when the value is neither a structure
handled above nor a map. -/
def unableToAccess (name prev : String) (leftStage rightStage : Value) : Outcome :=
  .returns .nil leftStage rightStage
    (some (.message ("Unable to access '" ++ name ++ "', '" ++ prev ++ "' is not a struct or map")))

/-- The loop of the behaviour built by `makeAccessorStage`, from the segment
`name :: rest` of the path on, with `prev` the segment before it and `value`
the current value; `pair0` and `pair1` are the first two segments. -/
def accessorLoop (R : Reflection) (isFunction : Bool) (pair0 pair1 : String)
    (right leftStage rightStage : Value) : String → List String → Value → Outcome
  | _, [], value => .returns (castToFloat64 value) leftStage rightStage none
  | prev, name :: rest, value =>
    match resolvePointer R value with
    | (corePtrVal, .struct fields methods) =>
      if isFunction then
        match fields name with
        | some (.exported v) =>
          accessorLoop R isFunction pair0 pair1 right leftStage rightStage name rest v
        | some .unexported =>
          .panics (.value (.str
            "reflect.Value.Interface: cannot return value obtained from unexported field or method"))
        | none => unableToAccess name prev leftStage rightStage
      else
        match lookupMethod methods corePtrVal name with
        | none =>
          .returns .nil leftStage rightStage
            (some (.message ("No method or field '" ++ name ++ "' present on parameter '"
              ++ prev ++ "'")))
        | some method =>
          match typeConvertParams R method (givenParams right) with
          | .error err =>
            .returns .nil leftStage rightStage
              (some (.message ("Method call failed - '" ++ pair0 ++ "." ++ pair1 ++ "': " ++ err)))
          | .panics p => .panics p
          | .ok params =>
            match method.call params with
            | .panics p => .panics p
            | .returns [] =>
              .returns .nil leftStage rightStage
                (some (.message ("Method call '" ++ prev ++ "." ++ name
                  ++ "' did not return any values.")))
            | .returns [v] =>
              accessorLoop R isFunction pair0 pair1 right leftStage rightStage name rest v
            | .returns [v, errIface] =>
              match asError R errIface with
              | some err => .returns v leftStage rightStage (some err)
              | none =>
                accessorLoop R isFunction pair0 pair1 right leftStage rightStage name rest v
            | .returns _ => unableToAccess name prev leftStage rightStage
    | (_, .map (some keyType) _) =>
      .panics (.value (.str
        ("reflect.Value.MapIndex: value of type string is not assignable to type " ++ keyType)))
    | (_, .map none entries) =>
      match entries name with
      | none =>
        .returns .nil leftStage rightStage
          (some (.message ("No field '" ++ name ++ "' present on parameter '" ++ prev ++ "'")))
      | some v => accessorLoop R isFunction pair0 pair1 right leftStage rightStage name rest v
    | _ => unableToAccess name prev leftStage rightStage

/-- The deferred function of the accessor: a panic of the loop is recovered
and its value asserted to be a string (`r.(string)`); a string becomes the
error "Failed to access", with a nil result and the carried stages; on any
other panic value the assertion itself panics. -/
def recoverAccess (reconstructed : String) (leftStage rightStage : Value) : Outcome → Outcome
  | .panics (.value (.str r)) =>
    .returns .nil leftStage rightStage
      (some (.message ("Failed to access '" ++ reconstructed ++ "': " ++ r)))
  | .panics _ => assertionPanic
  | out => out

/-- `makeAccessorStage`, over the view `R` that `reflect` gives of the host
values.  `pair[0]` on an empty path panics before the deferred function is
set up. -/
def makeAccessorStage (R : Reflection) (pair : List String) (isFunction : Bool) :
    evaluationOperator :=
  fun _left right leftStage rightStage parameters =>
    let reconstructed := ".".intercalate pair
    match pair with
    | [] => .panics (.runtimeError "index out of range")
    | root :: rest =>
      match parameters.Get root with
      | .error err => .returns .nil leftStage rightStage (some err)
      | .ok value =>
        recoverAccess reconstructed leftStage rightStage
          (accessorLoop R isFunction root (rest.headD "") right leftStage rightStage
            root rest value)

/-! ## The other arithmetic operators -/

/-- Go's `-a` on `float64`. -/
def F64.neg : F64 → F64
  | .nan => .nan
  | .inf neg => .inf (!neg)
  | .fin neg mant exp => .fin (!neg) mant exp

/-- Go's `a - b` on `float64`: in IEEE 754 arithmetic the difference is the
sum of `a` and `-b`, signed zeros included. -/
def F64.sub (a b : F64) : F64 := F64.add a (F64.neg b)

/-- Go's `a * b` on `float64`: the exact product rounded to nearest-even; the
sign is the exclusive or of the signs, and zero times an infinity is a NaN. -/
def F64.mul : F64 → F64 → F64
  | .nan, _ => .nan
  | _, .nan => .nan
  | .inf a, .inf b => .inf (xor a b)
  | .inf a, .fin s m _ => if m = 0 then .nan else .inf (xor a s)
  | .fin s m _, .inf b => if m = 0 then .nan else .inf (xor s b)
  | .fin s1 m1 e1, .fin s2 m2 e2 =>
    let e := e1 + e2
    if 0 ≤ e then F64.round (xor s1 s2) (m1 * m2 * 2 ^ e.toNat) 1
    else F64.round (xor s1 s2) (m1 * m2) (2 ^ (-e).toNat)

/-- Go's `a / b` on `float64`: the exact quotient rounded to nearest-even.  A
division by zero does not panic: it is an infinity, or a NaN for `0 / 0`. -/
def F64.div : F64 → F64 → F64
  | .nan, _ => .nan
  | _, .nan => .nan
  | .inf _, .inf _ => .nan
  | .inf a, .fin s _ _ => .inf (xor a s)
  | .fin s _ _, .inf b => .fin (xor s b) 0 (-1074)
  | .fin s1 m1 e1, .fin s2 m2 e2 =>
    if m2 = 0 then (if m1 = 0 then .nan else .inf (xor s1 s2))
    else
      let e := e1 - e2
      if 0 ≤ e then F64.round (xor s1 s2) (m1 * 2 ^ e.toNat) m2
      else F64.round (xor s1 s2) m1 (m2 * 2 ^ (-e).toNat)

/-- Go's `math.Mod(x, y)`: a NaN when `y` is zero, `x` an infinity or either
a NaN; `x` when `y` is an infinity; otherwise the remainder of `|x|` by `|y|`,
which is a `float64` exactly, with the sign of `x`. -/
def F64.mod : F64 → F64 → F64
  | .nan, _ => .nan
  | _, .nan => .nan
  | .inf _, _ => .nan
  | .fin s m e, .inf _ => .fin s m e
  | .fin s1 m1 e1, .fin _ m2 e2 =>
    if m2 = 0 then .nan
    else
      let e := min e1 e2
      let r := (m1 * 2 ^ (e1 - e).toNat) % (m2 * 2 ^ (e2 - e).toNat)
      if 0 ≤ e then F64.round s1 (r * 2 ^ e.toNat) 1
      else F64.round s1 r (2 ^ (-e).toNat)

/-- `noopStageRight`. -/
def noopStageRight (_left right leftStage rightStage : Value) (_parameters : Parameters) :
    Outcome :=
  .returns right leftStage rightStage none

/-- `subtractStage`. -/
def subtractStage (left right leftStage rightStage : Value) (_parameters : Parameters) :
    Outcome :=
  onFloats left right leftStage rightStage fun l r => .float64 (F64.sub l r)

/-- `multiplyStage`. -/
def multiplyStage (left right leftStage rightStage : Value) (_parameters : Parameters) :
    Outcome :=
  onFloats left right leftStage rightStage fun l r => .float64 (F64.mul l r)

/-- `divideStage`. -/
def divideStage (left right leftStage rightStage : Value) (_parameters : Parameters) :
    Outcome :=
  onFloats left right leftStage rightStage fun l r => .float64 (F64.div l r)

/-- `exponentStage`, over the function `Pow` of package `math`, which is not
modelled: its results are those of a polynomial approximation. -/
def exponentStage (Pow : F64 → F64 → F64) : evaluationOperator :=
  fun left right leftStage rightStage _parameters =>
    onFloats left right leftStage rightStage fun l r => .float64 (Pow l r)

/-- `modulusStage`. -/
def modulusStage (left right leftStage rightStage : Value) (_parameters : Parameters) :
    Outcome :=
  onFloats left right leftStage rightStage fun l r => .float64 (F64.mod l r)

/-- `notEqualStage`: the negation of `reflect.DeepEqual` of two strings or of
two floats. -/
def notEqualStage (left right leftStage rightStage : Value) (_parameters : Parameters) :
    Outcome :=
  if isString left && isString right then
    onStrings left right leftStage rightStage fun l r => !decide (l = r)
  else onFloats left right leftStage rightStage fun l r => boolIface (!F64.eq l r)

/-- `andStage`: `left.(bool) && right.(bool)`; the right operand is asserted
to be a boolean only when the left one is true. -/
def andStage (left right leftStage rightStage : Value) (_parameters : Parameters) : Outcome :=
  match left with
  | .bool false => .returns (boolIface false) leftStage rightStage none
  | .bool true =>
    match right with
    | .bool r => .returns (boolIface r) leftStage rightStage none
    | _ => assertionPanic
  | _ => assertionPanic

/-- `orStage`: `left.(bool) || right.(bool)`; the right operand is asserted to
be a boolean only when the left one is false. -/
def orStage (left right leftStage rightStage : Value) (_parameters : Parameters) : Outcome :=
  match left with
  | .bool true => .returns (boolIface true) leftStage rightStage none
  | .bool false =>
    match right with
    | .bool r => .returns (boolIface r) leftStage rightStage none
    | _ => assertionPanic
  | _ => assertionPanic

/-- `negateStage`. -/
def negateStage (_left right leftStage rightStage : Value) (_parameters : Parameters) :
    Outcome :=
  match convert2Float64 right with
  | .error err => .returns .nil leftStage rightStage (some err)
  | .ok rightFloat64 => .returns (.float64 (F64.neg rightFloat64)) leftStage rightStage none

/-- `invertStage`: the operand is asserted to be a boolean. -/
def invertStage (_left right leftStage rightStage : Value) (_parameters : Parameters) :
    Outcome :=
  match right with
  | .bool r => .returns (boolIface (!r)) leftStage rightStage none
  | _ => assertionPanic

/-- The view of package `regexp`: what `Compile` makes of a pattern text (a
compiled pattern, given by what `Match` answers on a text, or the message of
the error), and the compiled pattern a host value is when its type is
`*regexp.Regexp` (`some none` for a nil pointer of that type). -/
structure Regexp where
  Compile : String → Except String (String → Bool)
  compiled : Host → Option (Option (String → Bool))

/-- The `switch right.(type)` of `regexStage`: the pattern compiled from a
string, or the error of the compilation; the pattern itself when `right` is a
`*regexp.Regexp`; the nil pattern otherwise. -/
def regexPattern (re : Regexp) (right : Value) : Except GoError (Option (String → Bool)) :=
  match right with
  | .str text =>
    match re.Compile text with
    | .ok pattern => .ok (some pattern)
    | .error err =>
      .error (.message ("Unable to compile regexp pattern '" ++ text ++ "': " ++ err))
  | .host h =>
    match re.compiled h with
    | some pattern => .ok pattern
    | none => .ok none
  | _ => .ok none

/-- `regexStage`, over the view `re` of package `regexp`: `left` is asserted
to be a string, and `Match` on the nil pattern dereferences it. -/
def regexStage (re : Regexp) : evaluationOperator :=
  fun left right leftStage rightStage _parameters =>
    match regexPattern re right with
    | .error err => .returns .nil leftStage rightStage (some err)
    | .ok pattern =>
      match left with
      | .str text =>
        match pattern with
        | some isMatch => .returns (.bool (isMatch text)) leftStage rightStage none
        | none => .panics nilDereference
      | _ => assertionPanic

/-- `notRegexStage`: the results of `regexStage` are assigned to `leftStage`
and `rightStage` and returned, with the boolean negated. -/
def notRegexStage (re : Regexp) : evaluationOperator :=
  fun left right leftStage rightStage parameters =>
    match regexStage re left right leftStage rightStage parameters with
    | .panics p => .panics p
    | .returns _ leftStage rightStage (some err) => .returns .nil leftStage rightStage (some err)
    | .returns ret leftStage rightStage none =>
      match ret with
      | .bool b => .returns (.bool (!b)) leftStage rightStage none
      | _ => assertionPanic

/-- `makeParameterStage`. -/
def makeParameterStage (parameterName : String) : evaluationOperator :=
  fun _left _right leftStage rightStage parameters =>
    match parameters.Get parameterName with
    | .error err => .returns .nil leftStage rightStage (some err)
    | .ok value => .returns value leftStage rightStage none

/-- `makeLiteralStage`. -/
def makeLiteralStage (literal : Value) : evaluationOperator :=
  fun _left _right leftStage rightStage _parameters =>
    .returns literal leftStage rightStage none

/-! ## Fixtures of the statements -/

/-- A variable lookup with no variables; `Get` fails the way the lookup of an
empty map does. -/
def noParameters : Parameters :=
  ⟨fun name => .error (.message ("No parameter found: " ++ name))⟩

/-- Whether the value is null, a boolean, a string or a number of a built-in
type. -/
def Value.plain : Value → Bool
  | .nil => true
  | .bool _ => true
  | .str _ => true
  | .float64 _ => true
  | .float32 _ => true
  | .int _ _ => true
  | _ => false

/-- A host value of a comparable structure type, `main.Box` with one field of
interface type, that holds a slice in that field: compared with itself (it is
the value 0 of its type) `==` panics, and it is unequal to the other values of
the type, whose field holds something else. -/
def boxedSlice : Host :=
  ⟨"main.Box", 0, fun n => if n = 0 then none else some false, some "\x7b\"F\":[1]\x7d",
    "\x7b[1]\x7d"⟩

/-- A host value of the named float type `main.Celsius` that holds a NaN: it
is unequal to every value of the type, itself included. -/
def nanCelsius : Host :=
  ⟨"main.Celsius", 0, fun _ => some false, none, "NaN"⟩

/-- A host value for the statements: a structure `main.User` with the
exported field `Name`. -/
def userHost : Host :=
  ⟨"main.User", 0, fun n => some (decide (n = 0)), some "\x7b\"Name\":\"x\"\x7d", "\x7bx\x7d"⟩

/-- A host value that is an error with the message "bad". -/
def errHost : Host :=
  ⟨"*errors.errorString", 1, fun n => some (decide (n = 1)), some "\x7b\x7d", "bad"⟩

/-- The methods of `main.User` in the statements, none with parameters:
`Greet` returns one value, `Pair` a value and a nil error, `Err` a value and
an error, `None` nothing, `Three` three values, `Fail` panics with a string
and `Boom` with a run-time error; `Echo` takes one text and returns it. -/
def userMethods (name : String) : Option Method :=
  if name = "Greet" then some ⟨[], fun _ => .returns [.str "hi"]⟩
  else if name = "Echo" then
    some ⟨[⟨"string", fun v => match v with
        | .str t => some (.str t)
        | _ => none⟩],
      fun args => .returns [args.headD .nil]⟩
  else if name = "Pair" then some ⟨[], fun _ => .returns [.str "hi", .nil]⟩
  else if name = "Err" then some ⟨[], fun _ => .returns [.str "hi", .host errHost]⟩
  else if name = "None" then some ⟨[], fun _ => .returns []⟩
  else if name = "Three" then some ⟨[], fun _ => .returns [.str "a", .str "b", .str "c"]⟩
  else if name = "Fail" then some ⟨[], fun _ => .panics (.value (.str "boom"))⟩
  else if name = "Boom" then
    some ⟨[], fun _ => .panics (.runtimeError "invalid memory address or nil pointer dereference")⟩
  else none

/-- The view of the two host values above. -/
def userReflection : Reflection :=
  ⟨fun h =>
      if h.typeName = "main.User" then
        .struct (fun name => if name = "Name" then some (.exported (.str "x")) else none)
          userMethods
      else .other "ptr",
    fun h => if h.typeName = "*errors.errorString" then some (.message h.text) else none⟩

/-- A variable lookup that binds `obj` to the structure above. -/
def userParameters : Parameters :=
  ⟨fun name =>
    if name = "obj" then .ok (.host userHost)
    else .error (.message ("No parameter found: " ++ name))⟩

/-- A host function for the statements: it returns the number of its
arguments. -/
def countArguments : ExpressionFunction :=
  fun args => .returns (.float64 (F64.ofInt args.length)) none

/-- The second and third results of a call that returns (the carry slots);
`none` when the call panics. -/
def Outcome.carry : Outcome → Option (Value × Value)
  | .returns _ leftStage rightStage _ => some (leftStage, rightStage)
  | .panics _ => none

/-- A stand-in for package `regexp`: a pattern matches the text equal to it,
the pattern "(" does not compile, and no host value is a compiled pattern. -/
def exactRegexp : Regexp :=
  ⟨fun text => if text = "(" then .error "missing closing )" else .ok fun s => decide (s = text),
    fun _ => none⟩

/-- A memory with an addition at address 0, whose right child is at address 1;
that address, like every other one, holds a multiplication without
children. -/
def sumOverProduct : StageHeap :=
  fun p =>
    if p = 0 then
      ⟨.PLUS, none, some 1, some addStage, none, none, some additionTypeCheck, "plus"⟩
    else ⟨.MULTIPLY, none, none, some multiplyStage, some isNumber, some isNumber, none, "times"⟩

/-- Modelled from the spec: the evaluator that walks a chain of comma nodes is
outside the two source files.  Given the outcome of the previous call and the
remaining calls, each with its `left`, `right` and `rightStage`, every call of
`separatorStage` gets as `leftStage` the second result of the call before it;
an error or a panic ends the chain. -/
def separatorChain (parameters : Parameters) : Outcome → List (Value × Value × Value) → Outcome
  | out, [] => out
  | .returns _ carry _ none, (left, right, rightStage) :: rest =>
    separatorChain parameters (separatorStage left right carry rightStage parameters) rest
  | out, _ :: _ => out

end Govaluate

/-! ## Lemmas shared by the statements -/

namespace Govaluate

theorem boolIface_eq (b : Bool) : boolIface b = .bool b := by
  cases b <;> rfl

theorem isString_eq_true (v : Value) : isString v = true ↔ ∃ s, v = .str s := by
  cases v <;> simp [isString]

theorem isNumber_eq_true (v : Value) : isNumber v = true ↔ ∃ a, convert2Float64 v = .ok a := by
  unfold isNumber
  cases h : convert2Float64 v <;> simp

theorem isNumber_eq_false (v : Value) :
    isNumber v = false ↔ ∃ e, convert2Float64 v = .error e := by
  unfold isNumber
  cases h : convert2Float64 v <;> simp

theorem bytesLt_iff (xs ys : List Nat) : bytesLt xs ys = true ↔ List.lt xs ys := by
  induction xs generalizing ys with
  | nil =>
    cases ys with
    | nil =>
      simp only [bytesLt]
      exact ⟨fun h => (by cases h), fun h => (by cases h)⟩
    | cons b bs =>
      simp only [bytesLt]
      exact ⟨fun _ => List.lt.nil b bs, fun _ => trivial⟩
  | cons a as ih =>
    cases ys with
    | nil =>
      simp only [bytesLt]
      exact ⟨fun h => (by cases h), fun h => (by cases h)⟩
    | cons b bs =>
      simp only [bytesLt]
      by_cases hab : a < b
      · simp only [hab, if_true]
        exact ⟨fun _ => List.lt.head as bs hab, fun _ => trivial⟩
      · by_cases hba : b < a
        · simp only [hab, hba, if_true, if_false]
          refine ⟨fun h => (by cases h), fun h => ?_⟩
          cases h with
          | head _ _ h1 => exact absurd h1 hab
          | tail _ h2 _ => exact absurd hba h2
        · simp only [hab, hba, if_false]
          rw [ih bs]
          refine ⟨fun h => List.lt.tail hab hba h, fun h => ?_⟩
          cases h with
          | head _ _ h1 => exact absurd h1 hab
          | tail _ _ h3 => exact h3

theorem strLt_iff (a b : String) : strLt a b = true ↔ List.lt (bytesOf a) (bytesOf b) :=
  bytesLt_iff _ _

/-! ## The order of the floats -/

theorem aligned_cast (s : Bool) (m : Nat) (ex e : Int) (h : e ≤ ex) :
    ((F64.aligned s m ex e : Int) : ℚ) * (2 : ℚ) ^ e
      = (if s then -1 else 1) * (m : ℚ) * (2 : ℚ) ^ ex := by
  have h2 : (2 : ℚ) ^ ex = (2 : ℚ) ^ ((ex - e).toNat) * (2 : ℚ) ^ e := by
    rw [← zpow_natCast, ← zpow_add₀ (by norm_num), Int.toNat_of_nonneg (by omega)]
    congr 1
    omega
  unfold F64.aligned
  cases s <;> simp [h2] <;> ring

theorem compare_scaled (a b : Int) (c : ℚ) (hc : 0 < c) :
    (compare a b = .lt ↔ (a : ℚ) * c < (b : ℚ) * c) ∧
    (compare a b = .eq ↔ (a : ℚ) * c = (b : ℚ) * c) ∧
    (compare a b = .gt ↔ (b : ℚ) * c < (a : ℚ) * c) := by
  have hne : c ≠ 0 := ne_of_gt hc
  refine ⟨?_, ?_, ?_⟩
  · rw [compare_lt_iff_lt, mul_lt_mul_right hc, Int.cast_lt]
  · rw [compare_eq_iff_eq, mul_left_inj' hne, Int.cast_inj]
  · rw [compare_gt_iff_gt, mul_lt_mul_right hc, Int.cast_lt]

theorem F64_cmp_toExt (x y : F64) :
    (x.toExt = none ∨ y.toExt = none → F64.cmp x y = none) ∧
    (∀ v w, x.toExt = some v → y.toExt = some w →
      ∃ o, F64.cmp x y = some o ∧ (o = .lt ↔ v < w) ∧ (o = .eq ↔ v = w) ∧ (o = .gt ↔ w < v)) := by
  cases x with
  | nan =>
    refine ⟨fun _ => by cases y <;> rfl, ?_⟩
    intro v w hv; cases hv
  | inf s =>
    cases y with
    | nan => exact ⟨fun _ => rfl, by intro v w _ hw; cases hw⟩
    | inf t =>
      refine ⟨(by intro h; rcases h with h | h <;> cases h), ?_⟩
      intro v w hv hw
      simp only [F64.toExt, Option.some.injEq] at hv hw
      subst hv hw
      cases s <;> cases t <;> simp [F64.cmp]
    | fin t n f =>
      refine ⟨(by intro h; rcases h with h | h <;> cases h), ?_⟩
      intro v w hv hw
      simp only [F64.toExt, Option.some.injEq] at hv hw
      subst hv hw
      cases s
      · simp only [F64.cmp]
        simp
        rw [← WithBot.coe_top]
        exact WithBot.coe_lt_coe.2 (WithTop.coe_lt_top _)
      · simp [F64.cmp]
  | fin s m e =>
    cases y with
    | nan => exact ⟨fun _ => rfl, by intro v w _ hw; cases hw⟩
    | inf t =>
      refine ⟨(by intro h; rcases h with h | h <;> cases h), ?_⟩
      intro v w hv hw
      simp only [F64.toExt, Option.some.injEq] at hv hw
      subst hv hw
      cases t
      · simp only [F64.cmp]
        simp
        rw [← WithBot.coe_top]
        exact WithBot.coe_lt_coe.2 (WithTop.coe_lt_top _)
      · simp [F64.cmp]
    | fin t n f =>
      refine ⟨(by intro h; rcases h with h | h <;> cases h), ?_⟩
      intro v w hv hw
      simp only [F64.toExt, Option.some.injEq] at hv hw
      subst hv hw
      refine ⟨_, rfl, ?_⟩
      have hc : (0 : ℚ) < (2 : ℚ) ^ (min e f) := zpow_pos (by norm_num) _
      have h1 := aligned_cast s m e (min e f) (min_le_left e f)
      have h2 := aligned_cast t n f (min e f) (min_le_right e f)
      have key := compare_scaled (F64.aligned s m e (min e f)) (F64.aligned t n f (min e f)) _ hc
      rw [h1, h2] at key
      simp only [WithBot.coe_lt_coe, WithTop.coe_lt_coe, WithBot.coe_inj, WithTop.coe_inj]
      exact key

theorem F64_order (x y : F64) :
    (F64.lt x y = true ↔ ∃ v w, x.toExt = some v ∧ y.toExt = some w ∧ v < w) ∧
    (F64.le x y = true ↔ ∃ v w, x.toExt = some v ∧ y.toExt = some w ∧ v ≤ w) ∧
    (F64.gt x y = true ↔ ∃ v w, x.toExt = some v ∧ y.toExt = some w ∧ w < v) ∧
    (F64.ge x y = true ↔ ∃ v w, x.toExt = some v ∧ y.toExt = some w ∧ w ≤ v) ∧
    (F64.eq x y = true ↔ ∃ v w, x.toExt = some v ∧ y.toExt = some w ∧ v = w) := by
  obtain ⟨hnone, hsome⟩ := F64_cmp_toExt x y
  cases hx : x.toExt with
  | none =>
    have hc := hnone (Or.inl hx)
    simp [F64.lt, F64.le, F64.gt, F64.ge, F64.eq, hc]
  | some v =>
    cases hy : y.toExt with
    | none =>
      have hc := hnone (Or.inr hy)
      simp [F64.lt, F64.le, F64.gt, F64.ge, F64.eq, hc]
    | some w =>
      obtain ⟨o, hc, hlt, heq, hgt⟩ := hsome v w hx hy
      have hb : ∀ o1 : Ordering, (some o == some o1) = true ↔ o = o1 := by
        intro o1; cases o <;> cases o1 <;> decide
      simp only [F64.lt, F64.le, F64.gt, F64.ge, F64.eq, hc, Option.some.injEq, exists_and_left,
        exists_eq_left', Bool.or_eq_true, hb]
      refine ⟨hlt, ?_, hgt, ?_, heq⟩
      · rw [hlt, heq, le_iff_lt_or_eq]
      · rw [hgt, heq, le_iff_lt_or_eq, eq_comm]

/-! ## C1: addition -/

/-- C1, as amended: if either operand is a string, `addStage` returns the
concatenation of the `%v` texts of the two operands, also when both strings
are numeric; otherwise, if both operands are numeric, it returns the
floating-point sum of their conversions.  The carried stages pass through and
the error is nil. -/
theorem addStage_concat_else_sum (left right leftStage rightStage : Value) (p : Parameters) :
    ((isString left = true ∨ isString right = true) →
      addStage left right leftStage rightStage p
        = .returns (.str (sprintV left ++ sprintV right)) leftStage rightStage none) ∧
    (isString left = false → isString right = false →
      isNumber left = true → isNumber right = true →
      ∃ a b, convert2Float64 left = .ok a ∧ convert2Float64 right = .ok b ∧
        addStage left right leftStage rightStage p
          = .returns (.float64 (F64.add a b)) leftStage rightStage none) := by
  constructor
  · intro h
    have hc : (isString left || isString right) = true := by
      rcases h with h | h <;> simp [h]
    simp [addStage, hc]
  · intro hl hr nl nr
    obtain ⟨a, ha⟩ := (isNumber_eq_true left).1 nl
    obtain ⟨b, hb⟩ := (isNumber_eq_true right).1 nr
    exact ⟨a, b, ha, hb, by simp [addStage, onFloats, hl, hr, ha, hb]⟩

/-- Witness of C1: `'n=' + 5` is "n=5", `'a' + 'b'` is "ab", `2 + 3` is the
float 5 and `2 + -3` the float -1. -/
theorem addStage_concat_else_sum_witness :
    addStage (.str "n=") (.float64 (F64.ofInt 5)) .nil .nil noParameters
        = .returns (.str "n=5") .nil .nil none ∧
    addStage (.str "a") (.str "b") .nil .nil noParameters
        = .returns (.str "ab") .nil .nil none ∧
    (∃ a b, convert2Float64 (.float64 (F64.ofInt 2)) = .ok a ∧
      convert2Float64 (.float64 (F64.ofInt 3)) = .ok b ∧
      addStage (.float64 (F64.ofInt 2)) (.float64 (F64.ofInt 3)) .nil .nil noParameters
        = .returns (.float64 (F64.add a b)) .nil .nil none) ∧
    addStage (.float64 (F64.ofInt 2)) (.float64 (F64.ofInt 3)) .nil .nil noParameters
      = .returns (.float64 (.fin false 5629499534213120 (-50))) .nil .nil none ∧
    F64.ofInt 5 = .fin false 5629499534213120 (-50) ∧
    addStage (.float64 (F64.ofInt 2)) (.int .int (-3)) .nil .nil noParameters
      = .returns (.float64 (.fin true 4503599627370496 (-52))) .nil .nil none :=
  ⟨(addStage_concat_else_sum _ _ _ _ _).1 (Or.inl rfl),
   (addStage_concat_else_sum _ _ _ _ _).1 (Or.inl rfl),
   (addStage_concat_else_sum _ _ _ _ _).2 rfl rfl rfl rfl,
   rfl, by decide, rfl⟩

/-- Counterexample to C1 as stated: "1" and "2" are both numeric (`isNumber`
holds for each), yet `addStage` returns the text "12", not a float. -/
theorem addStage_numeric_strings_concatenated :
    isNumber (.str "1") = true ∧ isNumber (.str "2") = true ∧
    addStage (.str "1") (.str "2") .nil .nil noParameters
      = .returns (.str "12") .nil .nil none ∧
    ∀ f : F64, addStage (.str "1") (.str "2") .nil .nil noParameters
      ≠ .returns (.float64 f) .nil .nil none := by
  refine ⟨rfl, rfl, rfl, ?_⟩
  intro f h
  have h2 : addStage (.str "1") (.str "2") .nil .nil noParameters
      = .returns (.str "12") .nil .nil none := rfl
  rw [h2] at h
  cases h

/-! ## C2: the four comparators -/

theorem onStrings_str (a b : String) (ls rs : Value) (f : String → String → Bool) :
    onStrings (.str a) (.str b) ls rs f = .returns (.bool (f a b)) ls rs none := by
  simp [onStrings, boolIface_eq]

theorem onFloats_left_error (l r ls rs : Value) (f : F64 → F64 → Value) (e : GoError)
    (h : convert2Float64 l = .error e) : onFloats l r ls rs f = .returns .nil ls rs (some e) := by
  simp [onFloats, h]

theorem onFloats_right_error (l r ls rs : Value) (f : F64 → F64 → Value) (a : F64) (e : GoError)
    (hl : convert2Float64 l = .ok a) (hr : convert2Float64 r = .error e) :
    onFloats l r ls rs f = .returns .nil ls rs (some e) := by
  simp [onFloats, hl, hr]

theorem onFloats_ok (l r ls rs : Value) (f : F64 → F64 → Value) (a b : F64)
    (hl : convert2Float64 l = .ok a) (hr : convert2Float64 r = .ok b) :
    onFloats l r ls rs f = .returns (f a b) ls rs none := by
  simp [onFloats, hl, hr]

/-- C2: each of `ltStage`, `lteStage`, `gtStage`, `gteStage` compares two
strings lexicographically on their bytes (`<` is the lexicographic order
`List.lt`, `<=` its converse negated, and so on), whether or not the strings
parse as numbers; in every other case it converts the left operand, then the
right one, with `convert2Float64` and returns the conversion error of the
first that fails (with a nil value), otherwise the numeric comparison of the
two floats: `<`, `<=`, `>`, `>=` of `float64`, which is the order of the
values of the floats on the extended rational line (`F64.toExt`), and false
as soon as one of them is a NaN.  The carried stages pass through. -/
theorem comparators_text_or_numeric (left right ls rs : Value) (p : Parameters) :
    (∀ a b, left = .str a → right = .str b →
      ∃ lt lte gt gte : Bool,
        ltStage left right ls rs p = .returns (.bool lt) ls rs none ∧
        lteStage left right ls rs p = .returns (.bool lte) ls rs none ∧
        gtStage left right ls rs p = .returns (.bool gt) ls rs none ∧
        gteStage left right ls rs p = .returns (.bool gte) ls rs none ∧
        (lt = true ↔ List.lt (bytesOf a) (bytesOf b)) ∧
        (lte = true ↔ ¬ List.lt (bytesOf b) (bytesOf a)) ∧
        (gt = true ↔ List.lt (bytesOf b) (bytesOf a)) ∧
        (gte = true ↔ ¬ List.lt (bytesOf a) (bytesOf b))) ∧
    ((isString left && isString right) = false →
      (∀ e, convert2Float64 left = .error e →
        ltStage left right ls rs p = .returns .nil ls rs (some e) ∧
        lteStage left right ls rs p = .returns .nil ls rs (some e) ∧
        gtStage left right ls rs p = .returns .nil ls rs (some e) ∧
        gteStage left right ls rs p = .returns .nil ls rs (some e)) ∧
      (∀ x e, convert2Float64 left = .ok x → convert2Float64 right = .error e →
        ltStage left right ls rs p = .returns .nil ls rs (some e) ∧
        lteStage left right ls rs p = .returns .nil ls rs (some e) ∧
        gtStage left right ls rs p = .returns .nil ls rs (some e) ∧
        gteStage left right ls rs p = .returns .nil ls rs (some e)) ∧
      (∀ x y, convert2Float64 left = .ok x → convert2Float64 right = .ok y →
        ltStage left right ls rs p = .returns (.bool (F64.lt x y)) ls rs none ∧
        lteStage left right ls rs p = .returns (.bool (F64.le x y)) ls rs none ∧
        gtStage left right ls rs p = .returns (.bool (F64.gt x y)) ls rs none ∧
        gteStage left right ls rs p = .returns (.bool (F64.ge x y)) ls rs none) ∧
      (∀ x y, convert2Float64 left = .ok x → convert2Float64 right = .ok y →
        ∃ lt lte gt gte : Bool,
          ltStage left right ls rs p = .returns (.bool lt) ls rs none ∧
          lteStage left right ls rs p = .returns (.bool lte) ls rs none ∧
          gtStage left right ls rs p = .returns (.bool gt) ls rs none ∧
          gteStage left right ls rs p = .returns (.bool gte) ls rs none ∧
          (lt = true ↔ ∃ v w, x.toExt = some v ∧ y.toExt = some w ∧ v < w) ∧
          (lte = true ↔ ∃ v w, x.toExt = some v ∧ y.toExt = some w ∧ v ≤ w) ∧
          (gt = true ↔ ∃ v w, x.toExt = some v ∧ y.toExt = some w ∧ w < v) ∧
          (gte = true ↔ ∃ v w, x.toExt = some v ∧ y.toExt = some w ∧ w ≤ v))) := by
  constructor
  · intro a b hl hr
    subst hl hr
    refine ⟨strLt a b, !strLt b a, strLt b a, !strLt a b, ?_, ?_, ?_, ?_, ?_, ?_, ?_, ?_⟩
    · simp [ltStage, isString, onStrings_str]
    · simp [lteStage, isString, onStrings_str]
    · simp [gtStage, isString, onStrings_str]
    · simp [gteStage, isString, onStrings_str]
    · exact strLt_iff a b
    · rw [← strLt_iff b a]; simp
    · exact strLt_iff b a
    · rw [← strLt_iff a b]; simp
  · intro hs
    refine ⟨?_, ?_, ?_, ?_⟩
    · intro e he
      simp [ltStage, lteStage, gtStage, gteStage, hs, onFloats_left_error _ _ _ _ _ e he]
    · intro x e hx he
      simp [ltStage, lteStage, gtStage, gteStage, hs, onFloats_right_error _ _ _ _ _ x e hx he]
    · intro x y hx hy
      simp [ltStage, lteStage, gtStage, gteStage, hs, onFloats_ok _ _ _ _ _ x y hx hy,
        boolIface_eq]
    · intro x y hx hy
      obtain ⟨h1, h2, h3, h4, _⟩ := F64_order x y
      refine ⟨F64.lt x y, F64.le x y, F64.gt x y, F64.ge x y, ?_, ?_, ?_, ?_, h1, h2, h3, h4⟩ <;>
        simp [ltStage, lteStage, gtStage, gteStage, hs, onFloats_ok _ _ _ _ _ x y hx hy,
          boolIface_eq]

/-- Witness of C2: `"10" < "9"` is true although 10 < 9 is false; on floats
`1 < 2`, `2 <= 2`, `2 > 1` and `2 >= 2` are true, `2 < 1`, `2 < 2`, `2 <= 1`,
`1 > 2` and `1 >= 2` are false, the text "10" is not below the number 9, and
every comparison with a NaN is false. -/
theorem comparators_text_or_numeric_witness :
    (∃ lt lte gt gte : Bool,
        ltStage (.str "10") (.str "9") .nil .nil noParameters = .returns (.bool lt) .nil .nil none ∧
        lteStage (.str "10") (.str "9") .nil .nil noParameters
          = .returns (.bool lte) .nil .nil none ∧
        gtStage (.str "10") (.str "9") .nil .nil noParameters = .returns (.bool gt) .nil .nil none ∧
        gteStage (.str "10") (.str "9") .nil .nil noParameters
          = .returns (.bool gte) .nil .nil none ∧
        (lt = true ↔ List.lt (bytesOf "10") (bytesOf "9")) ∧
        (lte = true ↔ ¬ List.lt (bytesOf "9") (bytesOf "10")) ∧
        (gt = true ↔ List.lt (bytesOf "9") (bytesOf "10")) ∧
        (gte = true ↔ ¬ List.lt (bytesOf "10") (bytesOf "9"))) ∧
    ltStage (.str "10") (.str "9") .nil .nil noParameters = .returns (.bool true) .nil .nil none ∧
    ltStage (.float64 (F64.ofInt 1)) (.float64 (F64.ofInt 2)) .nil .nil noParameters
      = .returns (.bool true) .nil .nil none ∧
    (∃ lt lte gt gte : Bool,
        ltStage (.float64 (F64.ofInt 1)) (.float64 (F64.ofInt 2)) .nil .nil noParameters
          = .returns (.bool lt) .nil .nil none ∧
        lteStage (.float64 (F64.ofInt 1)) (.float64 (F64.ofInt 2)) .nil .nil noParameters
          = .returns (.bool lte) .nil .nil none ∧
        gtStage (.float64 (F64.ofInt 1)) (.float64 (F64.ofInt 2)) .nil .nil noParameters
          = .returns (.bool gt) .nil .nil none ∧
        gteStage (.float64 (F64.ofInt 1)) (.float64 (F64.ofInt 2)) .nil .nil noParameters
          = .returns (.bool gte) .nil .nil none ∧
        (lt = true ↔ ∃ v w, (F64.ofInt 1).toExt = some v ∧ (F64.ofInt 2).toExt = some w ∧ v < w) ∧
        (lte = true ↔ ∃ v w, (F64.ofInt 1).toExt = some v ∧ (F64.ofInt 2).toExt = some w ∧ v ≤ w) ∧
        (gt = true ↔ ∃ v w, (F64.ofInt 1).toExt = some v ∧ (F64.ofInt 2).toExt = some w ∧ w < v) ∧
        (gte = true ↔
          ∃ v w, (F64.ofInt 1).toExt = some v ∧ (F64.ofInt 2).toExt = some w ∧ w ≤ v)) ∧
    (ltStage (.float64 (F64.ofInt 2)) (.float64 (F64.ofInt 1)) .nil .nil noParameters
        = .returns (.bool false) .nil .nil none ∧
      ltStage (.float64 (F64.ofInt 2)) (.float64 (F64.ofInt 2)) .nil .nil noParameters
        = .returns (.bool false) .nil .nil none ∧
      lteStage (.float64 (F64.ofInt 2)) (.float64 (F64.ofInt 2)) .nil .nil noParameters
        = .returns (.bool true) .nil .nil none ∧
      lteStage (.float64 (F64.ofInt 2)) (.float64 (F64.ofInt 1)) .nil .nil noParameters
        = .returns (.bool false) .nil .nil none ∧
      gtStage (.float64 (F64.ofInt 2)) (.float64 (F64.ofInt 1)) .nil .nil noParameters
        = .returns (.bool true) .nil .nil none ∧
      gtStage (.float64 (F64.ofInt 1)) (.float64 (F64.ofInt 2)) .nil .nil noParameters
        = .returns (.bool false) .nil .nil none ∧
      gteStage (.float64 (F64.ofInt 2)) (.float64 (F64.ofInt 2)) .nil .nil noParameters
        = .returns (.bool true) .nil .nil none ∧
      gteStage (.float64 (F64.ofInt 1)) (.float64 (F64.ofInt 2)) .nil .nil noParameters
        = .returns (.bool false) .nil .nil none ∧
      ltStage (.str "10") (.float64 (F64.ofInt 9)) .nil .nil noParameters
        = .returns (.bool false) .nil .nil none) ∧
    (ltStage (.float64 .nan) (.float64 (F64.ofInt 1)) .nil .nil noParameters
        = .returns (.bool false) .nil .nil none ∧
      lteStage (.float64 .nan) (.float64 .nan) .nil .nil noParameters
        = .returns (.bool false) .nil .nil none ∧
      gtStage (.float64 (F64.ofInt 1)) (.float64 .nan) .nil .nil noParameters
        = .returns (.bool false) .nil .nil none ∧
      gteStage (.float64 .nan) (.float64 .nan) .nil .nil noParameters
        = .returns (.bool false) .nil .nil none) :=
  ⟨(comparators_text_or_numeric _ _ _ _ _).1 "10" "9" rfl rfl, rfl,
   (((comparators_text_or_numeric (.float64 (F64.ofInt 1)) (.float64 (F64.ofInt 2))
        .nil .nil noParameters).2 rfl).2.2.1 (F64.ofInt 1) (F64.ofInt 2) rfl rfl).1,
   ((comparators_text_or_numeric (.float64 (F64.ofInt 1)) (.float64 (F64.ofInt 2))
        .nil .nil noParameters).2 rfl).2.2.2 (F64.ofInt 1) (F64.ofInt 2) rfl rfl,
   ⟨rfl, rfl, rfl, rfl, rfl, rfl, rfl, rfl, rfl⟩,
   ⟨rfl, rfl, rfl, rfl⟩⟩

/-! ## C3: equality -/

/-- C3, as amended: `equalStage` returns, for two strings, true exactly when
the strings are identical, without numeric coercion; for any two operands
that are not both strings, numeric or textual, it compares the two
`convert2Float64` conversions with `==`, so a text equals a number exactly
when it parses to an equal float, and a text that does not parse yields its
conversion error (the left operand's first). -/
theorem equalStage_identical_or_converted (left right ls rs : Value) (p : Parameters) :
    (∀ a b, left = .str a → right = .str b →
      equalStage left right ls rs p = .returns (.bool (decide (a = b))) ls rs none) ∧
    ((isString left && isString right) = false →
      (∀ x y, convert2Float64 left = .ok x → convert2Float64 right = .ok y →
        equalStage left right ls rs p = .returns (.bool (F64.eq x y)) ls rs none) ∧
      (∀ e, convert2Float64 left = .error e →
        equalStage left right ls rs p = .returns .nil ls rs (some e)) ∧
      (∀ x e, convert2Float64 left = .ok x → convert2Float64 right = .error e →
        equalStage left right ls rs p = .returns .nil ls rs (some e))) := by
  constructor
  · intro a b hl hr
    subst hl hr
    simp [equalStage, isString, onStrings_str]
  · intro hs
    refine ⟨?_, ?_, ?_⟩
    · intro x y hx hy
      simp [equalStage, hs, onFloats_ok _ _ _ _ _ x y hx hy, boolIface_eq]
    · intro e he
      simp [equalStage, hs, onFloats_left_error _ _ _ _ _ e he]
    · intro x e hx he
      simp [equalStage, hs, onFloats_right_error _ _ _ _ _ x e hx he]

/-- Witness of C3: "1" and "1.0" are unequal as strings, the floats 2 and 2
are equal, and the text "abc" against the number 1 yields the parse error. -/
theorem equalStage_identical_or_converted_witness :
    equalStage (.str "1") (.str "1.0") .nil .nil noParameters
      = .returns (.bool false) .nil .nil none ∧
    equalStage (.float64 (F64.ofInt 2)) (.int .int (2 : Int)) .nil .nil noParameters
      = .returns (.bool true) .nil .nil none ∧
    equalStage (.str "abc") (.float64 (F64.ofInt 1)) .nil .nil noParameters
      = .returns .nil .nil .nil (some (.numError "ParseFloat" "abc" false)) :=
  ⟨(equalStage_identical_or_converted _ _ _ _ _).1 "1" "1.0" rfl rfl,
   ((equalStage_identical_or_converted (.float64 (F64.ofInt 2)) (.int .int (2 : Int))
      .nil .nil noParameters).2 rfl).1 (F64.ofInt 2) (F64.ofInt 2) rfl rfl,
   ((equalStage_identical_or_converted (.str "abc") (.float64 (F64.ofInt 1))
      .nil .nil noParameters).2 rfl).2.1 _ rfl⟩

/-- Counterexample to C3 as stated: the textual operand "1" is reported equal
to the numeric operand 1. -/
theorem equalStage_text_equals_number :
    isString (.str "1") = true ∧ isString (.float64 (F64.ofInt 1)) = false ∧
    equalStage (.str "1") (.float64 (F64.ofInt 1)) .nil .nil noParameters
      = .returns (.bool true) .nil .nil none ∧
    equalStage (.float64 (F64.ofInt 1)) (.str "1") .nil .nil noParameters
      = .returns (.bool true) .nil .nil none :=
  ⟨rfl, rfl, rfl, rfl⟩

/-! ## C4: the ternary operator -/

/-- C4, as amended: for every boolean `c` and all values `a` and `b`,
`ternaryIfStage(c, a)` returns a value `v` without error, and
`ternaryElseStage(v, b)` returns `a` when `c` is true and `a` is not null,
and `b` when `c` is false. -/
theorem ternary_selects_branch (c : Bool) (a b ls rs ls2 rs2 : Value) (p : Parameters) :
    ∃ v, ternaryIfStage (.bool c) a ls rs p = .returns v ls rs none ∧
      (c = true → a ≠ .nil → ternaryElseStage v b ls2 rs2 p = .returns a ls2 rs2 none) ∧
      (c = false → ternaryElseStage v b ls2 rs2 p = .returns b ls2 rs2 none) := by
  cases c
  · exact ⟨.nil, rfl, fun h => (by cases h), fun _ => rfl⟩
  · refine ⟨a, rfl, fun _ ha => ?_, fun h => (by cases h)⟩
    cases a <;> first | exact absurd rfl ha | rfl

/-- Witness of C4: `true ? 1 : 2` is 1 and `false ? 1 : 2` is 2. -/
theorem ternary_selects_branch_witness :
    (∃ v, ternaryIfStage (.bool true) (.float64 (F64.ofInt 1)) .nil .nil noParameters
        = .returns v .nil .nil none ∧
      ternaryElseStage v (.float64 (F64.ofInt 2)) .nil .nil noParameters
        = .returns (.float64 (F64.ofInt 1)) .nil .nil none) ∧
    (∃ v, ternaryIfStage (.bool false) (.float64 (F64.ofInt 1)) .nil .nil noParameters
        = .returns v .nil .nil none ∧
      ternaryElseStage v (.float64 (F64.ofInt 2)) .nil .nil noParameters
        = .returns (.float64 (F64.ofInt 2)) .nil .nil none) := by
  constructor
  · obtain ⟨v, h1, h2, _⟩ := ternary_selects_branch true (.float64 (F64.ofInt 1))
      (.float64 (F64.ofInt 2)) .nil .nil .nil .nil noParameters
    exact ⟨v, h1, h2 rfl (fun h => by cases h)⟩
  · obtain ⟨v, h1, _, h4⟩ := ternary_selects_branch false (.float64 (F64.ofInt 1))
      (.float64 (F64.ofInt 2)) .nil .nil .nil .nil noParameters
    exact ⟨v, h1, h4 rfl⟩

/-- Counterexample to C4 as stated: with `c` true and `a` null, the
composition `true ? null : 2` returns `b = 2`, not `a`. -/
theorem ternary_null_true_branch :
    ternaryIfStage (.bool true) .nil .nil .nil noParameters = .returns .nil .nil .nil none ∧
    ternaryElseStage .nil (.float64 (F64.ofInt 2)) .nil .nil noParameters
      = .returns (.float64 (F64.ofInt 2)) .nil .nil none ∧
    ternaryElseStage .nil (.float64 (F64.ofInt 2)) .nil .nil noParameters
      ≠ .returns .nil .nil .nil none := by
  refine ⟨rfl, rfl, ?_⟩
  intro h
  have h2 : ternaryElseStage .nil (.float64 (F64.ofInt 2)) .nil .nil noParameters
      = .returns (.float64 (F64.ofInt 2)) .nil .nil none := rfl
  rw [h2] at h
  cases h

/-! ## C5: null-coalesce -/

/-- C5: `ternaryElseStage`, the null-coalesce behaviour, returns `left` when
`left` is not null and `right` when it is, with a nil error and with
`leftStage` and `rightStage` passed through unchanged. -/
theorem ternaryElseStage_coalesce (left right ls rs : Value) (p : Parameters) :
    (left ≠ .nil → ternaryElseStage left right ls rs p = .returns left ls rs none) ∧
    (left = .nil → ternaryElseStage left right ls rs p = .returns right ls rs none) := by
  constructor
  · intro h
    cases left <;> first | exact absurd rfl h | rfl
  · intro h
    subst h
    rfl

/-- Witness of C5: `null ?? 5` is 5 and `3 ?? x` is 3. -/
theorem ternaryElseStage_coalesce_witness :
    ternaryElseStage .nil (.float64 (F64.ofInt 5)) .nil .nil noParameters
      = .returns (.float64 (F64.ofInt 5)) .nil .nil none ∧
    ternaryElseStage (.float64 (F64.ofInt 3)) (.str "x") .nil .nil noParameters
      = .returns (.float64 (F64.ofInt 3)) .nil .nil none :=
  ⟨(ternaryElseStage_coalesce _ _ _ _ _).2 rfl,
   (ternaryElseStage_coalesce _ _ _ _ _).1 (fun h => by cases h)⟩

/-! ## C6: short-circuit stages -/

/-- C6: `isShortCircuitable` is true exactly for the stages whose symbol is
`AND`, `OR`, `TERNARY_TRUE`, `TERNARY_FALSE` or `COALESCE`, and false for
every other symbol. -/
theorem isShortCircuitable_iff (stage : evaluationStage) :
    stage.isShortCircuitable = true ↔
      (stage.symbol = .AND ∨ stage.symbol = .OR ∨ stage.symbol = .TERNARY_TRUE ∨
        stage.symbol = .TERNARY_FALSE ∨ stage.symbol = .COALESCE) := by
  unfold evaluationStage.isShortCircuitable
  cases h : stage.symbol <;> simp

/-! ## C7: the argument separator -/

theorem separatorStage_seq (l r rs : Value) (acc : List Value) (p : Parameters) :
    separatorStage l r (.seq acc) rs p
      = .returns (.seq (acc ++ [r])) (.seq (acc ++ [r])) .nil none := by
  simp [separatorStage]

theorem separatorStage_fresh (l r ls rs : Value) (p : Parameters) (h : ∀ xs, ls ≠ .seq xs) :
    separatorStage l r ls rs p = .returns (.seq [l, r]) (.seq [l, r]) .nil none := by
  cases ls <;> first | exact absurd rfl (h _) | simp [separatorStage]

theorem separatorChain_seq (p : Parameters) (calls : List (Value × Value × Value)) :
    ∀ acc : List Value,
      separatorChain p (.returns (.seq acc) (.seq acc) .nil none) calls
        = .returns (.seq (acc ++ calls.map fun c => c.2.1))
            (.seq (acc ++ calls.map fun c => c.2.1)) .nil none := by
  induction calls with
  | nil => intro acc; simp [separatorChain]
  | cons c rest ih =>
    intro acc
    obtain ⟨l, r, rs⟩ := c
    simp only [separatorChain, separatorStage_seq, List.map_cons]
    rw [ih (acc ++ [r])]
    simp

/-- C7: folding `separatorStage` along a left-associated comma chain over the
values `v1, v2, ...` (at least two), the first call with a carried
`leftStage` that is not a sequence and every later call with the second
result of the call before it as `leftStage`, whatever its `left` and
`rightStage` are, yields exactly the ordered sequence of all the values; and
every call of `separatorStage` returns one sequence as its first and second
result, nil as its third, and a nil error. -/
theorem separatorStage_chain (p : Parameters) (v1 v2 ls0 rs0 : Value)
    (calls : List (Value × Value × Value)) (h : ∀ xs, ls0 ≠ .seq xs) :
    separatorChain p (separatorStage v1 v2 ls0 rs0 p) calls
      = .returns (.seq (v1 :: v2 :: calls.map fun c => c.2.1))
          (.seq (v1 :: v2 :: calls.map fun c => c.2.1)) .nil none ∧
    ∀ l r ls rs, ∃ xs, separatorStage l r ls rs p = .returns (.seq xs) (.seq xs) .nil none := by
  constructor
  · rw [separatorStage_fresh v1 v2 ls0 rs0 p h, separatorChain_seq]
    simp
  · intro l r ls rs
    cases ls <;> first
      | exact ⟨_, separatorStage_seq _ _ _ _ _⟩
      | exact ⟨[l, r], separatorStage_fresh _ _ _ _ _ (fun xs hx => by cases hx)⟩

/-- Witness of C7: the chain `1, 2, 3` from a nil carry gives `[1, 2, 3]`. -/
theorem separatorStage_chain_witness :
    separatorChain noParameters
        (separatorStage (.float64 (F64.ofInt 1)) (.float64 (F64.ofInt 2)) .nil .nil noParameters)
        [(.nil, .float64 (F64.ofInt 3), .nil)]
      = .returns
          (.seq [.float64 (F64.ofInt 1), .float64 (F64.ofInt 2), .float64 (F64.ofInt 3)])
          (.seq [.float64 (F64.ofInt 1), .float64 (F64.ofInt 2), .float64 (F64.ofInt 3)])
          .nil none :=
  (separatorStage_chain noParameters _ _ .nil .nil [(.nil, .float64 (F64.ofInt 3), .nil)]
    (fun xs hx => by cases hx)).1

/-! ## C8: membership -/

theorem ifaceEq_plain (x e : Value) (hx : x.plain = true) : ifaceEq x e ≠ none := by
  cases x <;> cases e <;> simp_all [ifaceEq, Value.plain]

theorem inStageLoop_true (x : Value) (s : List Value) :
    inStageLoop x s = some true ↔
      ∃ pre e post, s = pre ++ e :: post ∧ (∀ y ∈ pre, ifaceEq x y = some false) ∧
        ifaceEq x e = some true := by
  induction s with
  | nil => simp [inStageLoop]
  | cons v rest ih =>
    cases hv : ifaceEq x v with
    | none =>
      simp only [inStageLoop, hv]
      constructor
      · intro h; cases h
      · rintro ⟨pre, e, post, hs, hpre, he⟩
        cases pre with
        | nil =>
          simp only [List.nil_append, List.cons.injEq] at hs
          rw [← hs.1, hv] at he; cases he
        | cons y pre =>
          simp only [List.cons_append, List.cons.injEq] at hs
          have := hpre y (List.mem_cons_self _ _)
          rw [← hs.1, hv] at this; cases this
    | some c =>
      cases c with
      | true =>
        simp only [inStageLoop, hv, true_iff]
        exact ⟨[], v, rest, rfl, by simp, hv⟩
      | false =>
        simp only [inStageLoop, hv]
        rw [ih]
        constructor
        · rintro ⟨pre, e, post, hs, hpre, he⟩
          refine ⟨v :: pre, e, post, by simp [hs], ?_, he⟩
          intro y hy
          rcases List.mem_cons.1 hy with h | h
          · rw [h]; exact hv
          · exact hpre y h
        · rintro ⟨pre, e, post, hs, hpre, he⟩
          cases pre with
          | nil =>
            simp only [List.nil_append, List.cons.injEq] at hs
            rw [← hs.1, hv] at he; cases he
          | cons y pre =>
            simp only [List.cons_append, List.cons.injEq] at hs
            exact ⟨pre, e, post, hs.2, fun z hz => hpre z (List.mem_cons_of_mem _ hz), he⟩

theorem inStageLoop_false (x : Value) (s : List Value) :
    inStageLoop x s = some false ↔ ∀ e ∈ s, ifaceEq x e = some false := by
  induction s with
  | nil => simp [inStageLoop]
  | cons v rest ih =>
    cases hv : ifaceEq x v with
    | none => simp [inStageLoop, hv]
    | some c =>
      cases c with
      | true => simp [inStageLoop, hv]
      | false => simp [inStageLoop, hv, ih]

theorem inStageLoop_none (x : Value) (s : List Value) :
    inStageLoop x s = none ↔
      ∃ pre e post, s = pre ++ e :: post ∧ (∀ y ∈ pre, ifaceEq x y = some false) ∧
        ifaceEq x e = none := by
  induction s with
  | nil => simp [inStageLoop]
  | cons v rest ih =>
    cases hv : ifaceEq x v with
    | none =>
      simp only [inStageLoop, hv, true_iff]
      exact ⟨[], v, rest, rfl, by simp, hv⟩
    | some c =>
      have key : (∃ pre e post, v :: rest = pre ++ e :: post ∧
            (∀ y ∈ pre, ifaceEq x y = some false) ∧ ifaceEq x e = none) ↔
          (c = false ∧ ∃ pre e post, rest = pre ++ e :: post ∧
            (∀ y ∈ pre, ifaceEq x y = some false) ∧ ifaceEq x e = none) := by
        constructor
        · rintro ⟨pre, e, post, hs, hpre, he⟩
          cases pre with
          | nil =>
            simp only [List.nil_append, List.cons.injEq] at hs
            rw [← hs.1, hv] at he; cases he
          | cons y pre =>
            simp only [List.cons_append, List.cons.injEq] at hs
            have hy := hpre y (List.mem_cons_self _ _)
            rw [← hs.1, hv] at hy
            exact ⟨by simpa using hy, pre, e, post, hs.2,
              fun z hz => hpre z (List.mem_cons_of_mem _ hz), he⟩
        · rintro ⟨hc, pre, e, post, hs, hpre, he⟩
          subst hc
          refine ⟨v :: pre, e, post, by simp [hs], ?_, he⟩
          intro y hy
          rcases List.mem_cons.1 hy with h | h
          · rw [h]; exact hv
          · exact hpre y h
      rw [key]
      cases c with
      | true => simp [inStageLoop, hv]
      | false => simp [inStageLoop, hv, ih]

theorem inStage_seq (x : Value) (s : List Value) (ls rs : Value) (p : Parameters) :
    inStage x (.seq s) ls rs p =
      match inStageLoop x s with
      | some b => .returns (.bool b) ls rs none
      | none => uncomparablePanic := rfl

/-- C8, as amended: for every value `x` and every argument sequence `s`,
`inStage(x, s)` compares `x` with the elements of `s` in order under Go's
`==` on interface values and never returns an error.  It returns true exactly
when some element equals `x` and every comparison before the first such
element returns false; it returns false exactly when every comparison returns
false, so for the empty sequence; it panics exactly when a comparison panics
after comparisons that all returned false; one of the three happens.  When no
comparison panics, as for `x` null, a boolean, a string or a number, it
returns true if and only if some element of `s` equals `x`. -/
theorem inStage_membership (x : Value) (s : List Value) (ls rs : Value) (p : Parameters) :
    (inStage x (.seq s) ls rs p = .returns (.bool true) ls rs none ↔
      ∃ pre e post, s = pre ++ e :: post ∧ (∀ y ∈ pre, ifaceEq x y = some false) ∧
        ifaceEq x e = some true) ∧
    (inStage x (.seq s) ls rs p = .returns (.bool false) ls rs none ↔
      ∀ e ∈ s, ifaceEq x e = some false) ∧
    (inStage x (.seq s) ls rs p = .panics (.runtimeError "comparing uncomparable type") ↔
      ∃ pre e post, s = pre ++ e :: post ∧ (∀ y ∈ pre, ifaceEq x y = some false) ∧
        ifaceEq x e = none) ∧
    (inStage x (.seq s) ls rs p = .returns (.bool true) ls rs none ∨
      inStage x (.seq s) ls rs p = .returns (.bool false) ls rs none ∨
      inStage x (.seq s) ls rs p = .panics (.runtimeError "comparing uncomparable type")) ∧
    ((∀ e ∈ s, ifaceEq x e ≠ none) →
      ∃ b : Bool, inStage x (.seq s) ls rs p = .returns (.bool b) ls rs none ∧
        (b = true ↔ ∃ e ∈ s, ifaceEq x e = some true)) ∧
    (x.plain = true → ∀ e, ifaceEq x e ≠ none) ∧
    inStage x (.seq []) ls rs p = .returns (.bool false) ls rs none := by
  have hcases : ∀ o : Option Bool, inStageLoop x s = o →
      (inStage x (.seq s) ls rs p = .returns (.bool true) ls rs none ↔ o = some true) ∧
      (inStage x (.seq s) ls rs p = .returns (.bool false) ls rs none ↔ o = some false) ∧
      (inStage x (.seq s) ls rs p = .panics (.runtimeError "comparing uncomparable type")
        ↔ o = none) := by
    intro o ho
    rw [inStage_seq, ho]
    cases o with
    | none => simp [uncomparablePanic]
    | some b => cases b <;> simp
  obtain ⟨h1, h2, h3⟩ := hcases _ rfl
  refine ⟨h1.trans (inStageLoop_true x s), h2.trans (inStageLoop_false x s),
    h3.trans (inStageLoop_none x s), ?_, ?_, fun hx e => ifaceEq_plain x e hx, rfl⟩
  · cases ho : inStageLoop x s with
    | none => exact Or.inr (Or.inr (h3.2 ho))
    | some b =>
      cases b with
      | true => exact Or.inl (h1.2 ho)
      | false => exact Or.inr (Or.inl (h2.2 ho))
  · intro hne
    cases ho : inStageLoop x s with
    | none =>
      obtain ⟨pre, e, post, hs, _, he⟩ := (inStageLoop_none x s).1 ho
      exact absurd he (hne e (by simp [hs]))
    | some b =>
      cases b with
      | true =>
        obtain ⟨pre, e, post, hs, _, he⟩ := (inStageLoop_true x s).1 ho
        exact ⟨true, h1.2 ho, fun _ => ⟨e, by simp [hs], he⟩, fun _ => rfl⟩
      | false =>
        refine ⟨false, h2.2 ho, ?_⟩
        have hall := (inStageLoop_false x s).1 ho
        constructor
        · intro h; cases h
        · rintro ⟨e, hes, he⟩
          rw [hall e hes] at he; cases he

/-- Witness of C8: `2 in (1, 2, 3)` is true and `4 in (1, 2, 3)` is false; the
float 2 is not in a sequence that holds the `int` 2, a value of another
dynamic type; a NaN of a named float type is not in a sequence that holds it;
a slice against a sequence without slices is not in it, and no comparison
panics. -/
theorem inStage_membership_witness :
    inStage (.float64 (F64.ofInt 2))
        (.seq [.float64 (F64.ofInt 1), .float64 (F64.ofInt 2), .float64 (F64.ofInt 3)])
        .nil .nil noParameters = .returns (.bool true) .nil .nil none ∧
    inStage (.float64 (F64.ofInt 4))
        (.seq [.float64 (F64.ofInt 1), .float64 (F64.ofInt 2), .float64 (F64.ofInt 3)])
        .nil .nil noParameters = .returns (.bool false) .nil .nil none ∧
    inStage (.float64 (F64.ofInt 2)) (.seq [.int .int 2]) .nil .nil noParameters
      = .returns (.bool false) .nil .nil none ∧
    inStage (.host nanCelsius) (.seq [.host nanCelsius]) .nil .nil noParameters
      = .returns (.bool false) .nil .nil none ∧
    inStage (.seq []) (.seq [.str "a", .nil]) .nil .nil noParameters
      = .returns (.bool false) .nil .nil none :=
  ⟨(inStage_membership (.float64 (F64.ofInt 2)) _ .nil .nil noParameters).1.2
      ⟨[.float64 (F64.ofInt 1)], .float64 (F64.ofInt 2), [.float64 (F64.ofInt 3)], rfl,
        (by intro y hy; rw [List.mem_singleton.1 hy]; rfl), rfl⟩,
    (inStage_membership (.float64 (F64.ofInt 4)) _ .nil .nil noParameters).2.1.2
      (by
        intro e he
        simp only [List.mem_cons, List.mem_singleton, List.not_mem_nil, or_false] at he
        rcases he with h | h | h <;> rw [h] <;> rfl),
    (inStage_membership (.float64 (F64.ofInt 2)) _ .nil .nil noParameters).2.1.2
      (by intro e he; rw [List.mem_singleton.1 he]; rfl),
    (inStage_membership (.host nanCelsius) _ .nil .nil noParameters).2.1.2
      (by intro e he; rw [List.mem_singleton.1 he]; rfl),
    (inStage_membership (.seq []) _ .nil .nil noParameters).2.1.2
      (by
        intro e he
        simp only [List.mem_cons, List.mem_singleton, List.not_mem_nil, or_false] at he
        rcases he with h | h <;> rw [h] <;> rfl)⟩

/-- Counterexample to C8 as stated: for `x` an (empty) sequence and `s`
holding one (empty) sequence, `inStage` does not return: comparing two
slices panics.  So it does for `x` of a comparable structure type whose
interface field holds a slice, against itself. -/
theorem inStage_panics_on_slices :
    inStage (.seq []) (.seq [.seq []]) .nil .nil noParameters
      = .panics (.runtimeError "comparing uncomparable type") ∧
    inStage (.host boxedSlice) (.seq [.host boxedSlice]) .nil .nil noParameters
      = .panics (.runtimeError "comparing uncomparable type") ∧
    ∀ v l r e, inStage (.seq []) (.seq [.seq []]) .nil .nil noParameters ≠ .returns v l r e := by
  refine ⟨rfl, rfl, ?_⟩
  intro v l r e h
  have h2 : inStage (.seq []) (.seq [.seq []]) .nil .nil noParameters
      = .panics (.runtimeError "comparing uncomparable type") := rfl
  rw [h2] at h
  cases h

/-! ## C9: the behaviours are total under their type checks -/

theorem onFloats_of_numbers (l r ls rs : Value) (f : F64 → F64 → Value)
    (hl : isNumber l = true) (hr : isNumber r = true) :
    ∃ a b, convert2Float64 l = .ok a ∧ convert2Float64 r = .ok b ∧
      onFloats l r ls rs f = .returns (f a b) ls rs none := by
  obtain ⟨a, ha⟩ := (isNumber_eq_true l).1 hl
  obtain ⟨b, hb⟩ := (isNumber_eq_true r).1 hr
  exact ⟨a, b, ha, hb, onFloats_ok l r ls rs f a b ha hb⟩

theorem onStrings_of_strings (l r ls rs : Value) (f : String → String → Bool)
    (h : (isString l && isString r) = true) :
    ∃ b : Bool, onStrings l r ls rs f = .returns (.bool b) ls rs none := by
  simp only [Bool.and_eq_true] at h
  obtain ⟨a, ha⟩ := (isString_eq_true l).1 h.1
  obtain ⟨b, hb⟩ := (isString_eq_true r).1 h.2
  subst ha hb
  exact ⟨f a b, onStrings_str a b ls rs f⟩

theorem comparator_total (l r ls rs : Value) (f : String → String → Bool) (g : F64 → F64 → Bool)
    (h : comparatorTypeCheck l r = true) :
    ∃ b : Bool,
      (if isString l && isString r then onStrings l r ls rs f
        else onFloats l r ls rs fun x y => boolIface (g x y)) = .returns (.bool b) ls rs none := by
  by_cases hs : (isString l && isString r) = true
  · simp only [hs, if_true]
    exact onStrings_of_strings l r ls rs f hs
  · simp only [hs]
    have hn : (isNumber l && isNumber r) = true := by
      unfold comparatorTypeCheck at h
      by_cases hn : (isNumber l && isNumber r) = true
      · exact hn
      · simp [hn, hs] at h
    simp only [Bool.and_eq_true] at hn
    obtain ⟨a, b, _, _, hab⟩ :=
      onFloats_of_numbers l r ls rs (fun x y => boolIface (g x y)) hn.1 hn.2
    exact ⟨g a b, by simpa [boolIface_eq] using hab⟩

/-- C9: if `additionTypeCheck(l, r)` is true then `addStage(l, r)` returns a
value with a nil error, and if `comparatorTypeCheck(l, r)` is true then each
of `ltStage`, `lteStage`, `gtStage` and `gteStage` returns a boolean with a
nil error. -/
theorem typeChecked_behaviours_total (l r ls rs : Value) (p : Parameters) :
    (additionTypeCheck l r = true → ∃ v, addStage l r ls rs p = .returns v ls rs none) ∧
    (comparatorTypeCheck l r = true →
      (∃ b : Bool, ltStage l r ls rs p = .returns (.bool b) ls rs none) ∧
      (∃ b : Bool, lteStage l r ls rs p = .returns (.bool b) ls rs none) ∧
      (∃ b : Bool, gtStage l r ls rs p = .returns (.bool b) ls rs none) ∧
      (∃ b : Bool, gteStage l r ls rs p = .returns (.bool b) ls rs none)) := by
  constructor
  · intro h
    by_cases hs : (isString l || isString r) = true
    · exact ⟨.str (sprintV l ++ sprintV r), by simp [addStage, hs]⟩
    · have hn : (isNumber l && isNumber r) = true := by
        unfold additionTypeCheck at h
        by_cases hn : (isNumber l && isNumber r) = true
        · exact hn
        · simp only [Bool.or_eq_true, not_or, Bool.not_eq_true] at hs
          simp [hn, hs.1, hs.2] at h
      simp only [Bool.and_eq_true] at hn
      obtain ⟨a, b, _, _, hab⟩ :=
        onFloats_of_numbers l r ls rs (fun x y => .float64 (F64.add x y)) hn.1 hn.2
      exact ⟨_, by simpa [addStage, hs] using hab⟩
  · intro h
    exact ⟨comparator_total l r ls rs _ _ h, comparator_total l r ls rs _ _ h,
      comparator_total l r ls rs _ _ h, comparator_total l r ls rs _ _ h⟩

/-- Witness of C9: the checks pass on `'n=' + 5` and on `1 < 2`, and the
behaviours return without error. -/
theorem typeChecked_behaviours_total_witness :
    (∃ v, addStage (.str "n=") (.float64 (F64.ofInt 5)) .nil .nil noParameters
      = .returns v .nil .nil none) ∧
    ((∃ b : Bool, ltStage (.float64 (F64.ofInt 1)) (.float64 (F64.ofInt 2)) .nil .nil noParameters
        = .returns (.bool b) .nil .nil none) ∧
      (∃ b : Bool, lteStage (.float64 (F64.ofInt 1)) (.float64 (F64.ofInt 2)) .nil .nil
        noParameters = .returns (.bool b) .nil .nil none) ∧
      (∃ b : Bool, gtStage (.float64 (F64.ofInt 1)) (.float64 (F64.ofInt 2)) .nil .nil noParameters
        = .returns (.bool b) .nil .nil none) ∧
      (∃ b : Bool, gteStage (.float64 (F64.ofInt 1)) (.float64 (F64.ofInt 2)) .nil .nil
        noParameters = .returns (.bool b) .nil .nil none)) :=
  ⟨(typeChecked_behaviours_total (.str "n=") (.float64 (F64.ofInt 5)) .nil .nil noParameters).1 rfl,
   (typeChecked_behaviours_total (.float64 (F64.ofInt 1)) (.float64 (F64.ofInt 2)) .nil .nil
      noParameters).2 rfl⟩

/-! ## C10: the comparator type check -/

/-- C10, the code at the failing input: `comparatorTypeCheck` accepts the
string "1" against the number 1, in either order, because `isNumber` holds
for a string that parses as a number; the comparison is then carried out on
the two floats.  A string that does not parse is rejected against a number. -/
theorem comparatorTypeCheck_accepts_numeric_text :
    isString (.str "1") = true ∧
    comparatorTypeCheck (.str "1") (.float64 (F64.ofInt 1)) = true ∧
    comparatorTypeCheck (.float64 (F64.ofInt 1)) (.str "1") = true ∧
    comparatorTypeCheck (.str "1") (.int .int (1 : Int)) = true ∧
    ltStage (.str "1") (.float64 (F64.ofInt 2)) .nil .nil noParameters
      = .returns (.bool true) .nil .nil none ∧
    comparatorTypeCheck (.str "a") (.float64 (F64.ofInt 1)) = false :=
  ⟨rfl, rfl, rfl, rfl, rfl, rfl⟩

/-! ## C11: the addition type check -/

/-- C11: `additionTypeCheck(l, r)` is true if and only if both `l` and `r` are
numeric (`isNumber`) or at least one of them is a string. -/
theorem additionTypeCheck_iff (l r : Value) :
    additionTypeCheck l r = true ↔
      ((isNumber l = true ∧ isNumber r = true) ∨ isString l = true ∨ isString r = true) := by
  unfold additionTypeCheck
  cases isNumber l <;> cases isNumber r <;> cases isString l <;> cases isString r <;> simp

/-! ## Lemmas on the integer conversions -/

theorem bitLenAux_spec (fuel : Nat) : ∀ n acc : Nat, n ≤ fuel → 0 < n →
    ∃ b, 1 ≤ b ∧ bitLenAux fuel n acc = acc + b ∧ 2 ^ (b - 1) ≤ n ∧ n < 2 ^ b := by
  induction fuel with
  | zero => intro n acc h1 h2; omega
  | succ fuel ih =>
    intro n acc h1 h2
    have hn : n ≠ 0 := by omega
    simp only [bitLenAux, hn, if_false]
    by_cases h0 : n / 2 = 0
    · have h1n : n = 1 := by omega
      refine ⟨1, le_refl _, ?_, ?_, ?_⟩
      · rw [h0]
        cases fuel <;> simp [bitLenAux]
      · simp; omega
      · simp; omega
    · obtain ⟨b, hb1, hb2, hb3, hb4⟩ := ih (n / 2) (acc + 1) (by omega) (by omega)
      refine ⟨b + 1, by omega, by rw [hb2]; omega, ?_, ?_⟩
      · have : 2 ^ (b + 1 - 1) = 2 * 2 ^ (b - 1) := by
          rw [Nat.add_sub_cancel]
          conv_lhs => rw [show b = (b - 1) + 1 by omega]
          rw [pow_succ]; ring
        rw [this]; omega
      · rw [pow_succ]; omega

theorem bitLen_spec (n : Nat) (h : 0 < n) :
    1 ≤ bitLen n ∧ 2 ^ (bitLen n - 1) ≤ n ∧ n < 2 ^ bitLen n := by
  obtain ⟨b, hb1, hb2, hb3, hb4⟩ := bitLenAux_spec n n 0 (le_refl _) h
  have : bitLen n = b := by simp [bitLen, hb2]
  rw [this]; exact ⟨hb1, hb3, hb4⟩

theorem bitLen_le_of_lt_pow (n k : Nat) (h0 : 0 < n) (h : n < 2 ^ k) : bitLen n ≤ k := by
  obtain ⟨h1, h2, _⟩ := bitLen_spec n h0
  by_contra hc
  have hk : k ≤ bitLen n - 1 := by omega
  have : 2 ^ k ≤ 2 ^ (bitLen n - 1) := Nat.pow_le_pow_right (by norm_num) hk
  omega

theorem round_exact (neg : Bool) (n : Nat) (h0 : 0 < n) (h : n < 2 ^ 53) :
    F64.round neg n 1 = .fin neg (n * 2 ^ (53 - bitLen n)) ((bitLen n : Int) - 53) := by
  obtain ⟨hb1, hb2, hb3⟩ := bitLen_spec n h0
  have hb53 : bitLen n ≤ 53 := bitLen_le_of_lt_pow n 53 h0 h
  have hone : bitLen 1 = 1 := by decide
  have hn : n ≠ 0 := by omega
  generalize hb : bitLen n = b at *
  have hk : ((b : Int) - (1 : Nat)) = ((b - 1 : Nat) : Int) := by omega
  have hge : geTwoPow n 1 ((b : Int) - (1 : Nat)) = true := by
    rw [hk]
    simp [geTwoPow, hb2]
  have hq : n * 2 ^ (53 - b) < 2 ^ 53 := by
    calc n * 2 ^ (53 - b) < 2 ^ b * 2 ^ (53 - b) :=
          Nat.mul_lt_mul_of_pos_right hb3 (by positivity)
      _ = 2 ^ 53 := by rw [← pow_add]; congr 1; omega
  unfold F64.round
  simp only [hn, if_false, hone, hb, hge, if_true]
  have he : max ((b : Int) - (1 : Nat) - 52) (-1074) = (b : Int) - 53 := by omega
  simp only [he]
  by_cases hb53' : b = 53
  · subst hb53'
    have hne : n ≠ 9007199254740992 := by omega
    simp [Nat.mod_one, hne]
  · have hneg : ¬ (0 ≤ (b : Int) - 53) := by omega
    have hexp : (-((b : Int) - 53)).toNat = 53 - b := by omega
    have hne : n * 2 ^ (53 - b) ≠ 9007199254740992 := by omega
    simp only [hneg, if_false, hexp, Nat.div_one, Nat.mod_one]
    simp [hne]
    omega


theorem truncNat_zero (e : Int) : F64.truncNat 0 e = 0 := by
  unfold F64.truncNat
  split <;> simp

theorem truncNat_round_exact (n : Nat) (h0 : 0 < n) (h : n < 2 ^ 53) :
    F64.truncNat (n * 2 ^ (53 - bitLen n)) ((bitLen n : Int) - 53) = n := by
  have hb53 : bitLen n ≤ 53 := bitLen_le_of_lt_pow n 53 h0 h
  unfold F64.truncNat
  by_cases hb : bitLen n = 53
  · simp [hb]
  · have hneg : ¬ (0 ≤ (bitLen n : Int) - 53) := by omega
    have hexp : (-((bitLen n : Int) - 53)).toNat = 53 - bitLen n := by omega
    simp only [hneg, if_false, hexp]
    exact Nat.mul_div_cancel _ (by positivity)

theorem toRat_round_exact (neg : Bool) (n : Nat) (h0 : 0 < n) (h : n < 2 ^ 53) :
    F64.toRat (F64.round neg n 1) = some ((if neg then -1 else 1) * (n : ℚ)) := by
  have hb53 : bitLen n ≤ 53 := bitLen_le_of_lt_pow n 53 h0 h
  rw [round_exact neg n h0 h]
  simp only [F64.toRat, Option.some.injEq]
  have : ((n * 2 ^ (53 - bitLen n) : Nat) : ℚ) * (2 : ℚ) ^ ((bitLen n : Int) - 53) = n := by
    push_cast
    rw [mul_assoc, ← zpow_natCast, ← zpow_add₀ (by norm_num : (2 : ℚ) ≠ 0)]
    have : ((53 - bitLen n : Nat) : Int) + ((bitLen n : Int) - 53) = 0 := by omega
    rw [this]; simp
  rw [mul_assoc, this]

theorem ofInt_toRat (i : Int) (h : |i| ≤ 2 ^ 53) : F64.toRat (F64.ofInt i) = some (i : ℚ) := by
  unfold F64.ofInt
  by_cases hz : i = 0
  · subst hz
    have hr : F64.round (decide ((0 : Int) < 0)) (Int.natAbs 0) 1 = .fin false 0 (-1074) := rfl
    rw [hr]
    simp only [F64.toRat, Bool.false_eq_true, if_false, Nat.cast_zero, mul_zero, zero_mul,
      Int.cast_zero]
  have hpos : 0 < i.natAbs := Int.natAbs_pos.mpr hz
  have habs := abs_le.mp h
  have hle : i.natAbs ≤ 2 ^ 53 := by omega
  by_cases hmax : i.natAbs = 2 ^ 53
  · rw [hmax]
    have h1 : ∀ neg, F64.round neg (2 ^ 53) 1 = .fin neg (2 ^ 52) 1 := by
      intro neg; cases neg <;> decide
    rw [h1]
    simp only [F64.toRat, Option.some.injEq]
    by_cases hneg : i < 0
    · have : i = -(2 ^ 53) := by omega
      subst this; simp; norm_num
    · have : i = 2 ^ 53 := by omega
      subst this; simp; norm_num
  · rw [toRat_round_exact _ _ hpos (by omega)]
    simp only [Option.some.injEq]
    by_cases hneg : i < 0
    · simp only [hneg, decide_True, if_true]
      have : (i.natAbs : ℚ) = -(i : ℚ) := by
        rw [Nat.cast_natAbs, abs_of_neg hneg]
        push_cast
        rfl
      rw [this]; ring
    · simp only [hneg, decide_False]
      have : (i.natAbs : ℚ) = (i : ℚ) := by
        rw [Nat.cast_natAbs, abs_of_nonneg (by omega)]
      rw [this]; simp

theorem ofInt_toInt64 (i : Int) (h : |i| < 2 ^ 53) : F64.toInt64 (F64.ofInt i) = i := by
  unfold F64.ofInt
  by_cases hz : i = 0
  · subst hz
    have hr : F64.round (decide ((0 : Int) < 0)) (Int.natAbs 0) 1 = .fin false 0 (-1074) := rfl
    rw [hr]
    simp only [F64.toInt64, truncNat_zero, Bool.false_eq_true, if_false]
    simp
  have hpos : 0 < i.natAbs := Int.natAbs_pos.mpr hz
  have habs := abs_lt.mp h
  have hlt : i.natAbs < 2 ^ 53 := by omega
  rw [round_exact _ _ hpos hlt]
  simp only [F64.toInt64, truncNat_round_exact _ hpos hlt]
  by_cases hneg : i < 0
  · simp only [hneg, decide_True, if_true]
    have h2 : (i.natAbs : Int) = -i := by omega
    rw [h2]
    simp only [neg_neg]
    rw [if_pos (by omega)]
  · simp only [hneg, decide_False]
    have h2 : (i.natAbs : Int) = i := by omega
    rw [h2]
    simp only [Bool.false_eq_true, if_false]
    rw [if_pos (by omega)]

theorem ofInt_toUint64 (a : Nat) (h : a < 2 ^ 53) : F64.toUint64 (F64.ofInt (a : Int)) = a := by
  unfold F64.ofInt
  by_cases hz : a = 0
  · subst hz
    have hr : F64.round (decide (((0 : Nat) : Int) < 0)) (Int.natAbs ((0 : Nat) : Int)) 1
        = .fin false 0 (-1074) := rfl
    rw [hr]
    simp only [F64.toUint64, truncNat_zero, Bool.false_eq_true, if_false]
    rw [if_pos (by positivity)]
  have hpos : 0 < a := by omega
  have hneg : ¬ ((a : Int) < 0) := by omega
  simp only [hneg, decide_False, Int.natAbs_ofNat]
  rw [round_exact _ _ hpos h]
  simp only [F64.toUint64, truncNat_round_exact _ hpos h, Bool.false_eq_true, if_false]
  rw [if_pos (by omega)]

theorem xor_allOnes (n : Nat) (h : n < 2 ^ 64) : Nat.xor n (2 ^ 64 - 1) = 2 ^ 64 - 1 - n := by
  apply Nat.eq_of_testBit_eq
  intro i
  have h1 : 2 ^ 64 - 1 - n = 2 ^ 64 - (n + 1) := by omega
  rw [h1, Nat.testBit_two_pow_sub_succ h]
  show (n ^^^ (2 ^ 64 - 1)).testBit i = _
  rw [Nat.testBit_xor, Nat.testBit_two_pow_sub_one]
  by_cases hi : i < 64
  · simp [hi]
  · have : n.testBit i = false := by
      apply Nat.testBit_lt_two_pow
      calc n < 2 ^ 64 := h
        _ ≤ 2 ^ i := Nat.pow_le_pow_right (by norm_num) (by omega)
    simp [hi, this]

theorem not64_eq (x : Int) (h1 : -(2 ^ 63) ≤ x) (h2 : x < 2 ^ 63) : not64 x = -x - 1 := by
  unfold not64
  have hb : bits64 x < 2 ^ 64 := by unfold bits64; omega
  rw [xor_allOnes _ hb]
  unfold toInt64 bits64 at *
  omega

theorem truncNat_eq_floor (m : Nat) (e : Int) :
    ((F64.truncNat m e : Nat) : Int) = ⌊(m : ℚ) * (2 : ℚ) ^ e⌋ := by
  unfold F64.truncNat
  by_cases he : 0 ≤ e
  · simp only [he, if_true]
    obtain ⟨k, rfl⟩ := Int.eq_ofNat_of_zero_le he
    simp only [Int.toNat_ofNat, zpow_natCast]
    have : (m : ℚ) * 2 ^ k = ((m * 2 ^ k : Nat) : ℚ) := by push_cast; ring
    rw [this]
    exact (Int.floor_natCast _).symm
  · simp only [he, if_false]
    obtain ⟨k, hk⟩ : ∃ k : Nat, e = -(k : Int) := ⟨(-e).toNat, by omega⟩
    subst hk
    simp only [neg_neg, Int.toNat_ofNat, zpow_neg, zpow_natCast]
    have : (m : ℚ) * ((2 : ℚ) ^ k)⁻¹ = ((m : Int) : ℚ) / ((2 ^ k : Nat) : ℚ) := by
      push_cast; rw [div_eq_mul_inv]
    rw [this, Rat.floor_intCast_div_natCast]
    push_cast
    rfl

theorem toInt64_trunc (f : F64) (q : ℚ) (hq : F64.toRat f = some q) (h : |q| < 2 ^ 63) :
    F64.toInt64 f = if 0 ≤ q then ⌊q⌋ else ⌈q⌉ := by
  cases f with
  | nan => simp [F64.toRat] at hq
  | inf neg => simp [F64.toRat] at hq
  | fin neg m e =>
    simp only [F64.toRat, Option.some.injEq] at hq
    have hx0 : (0 : ℚ) ≤ (m : ℚ) * (2 : ℚ) ^ e := by positivity
    have ht := truncNat_eq_floor m e
    have hfl0 : (0 : Int) ≤ ⌊(m : ℚ) * (2 : ℚ) ^ e⌋ := Int.floor_nonneg.mpr hx0
    obtain ⟨hlo, hhi⟩ := abs_lt.mp h
    simp only [F64.toInt64]
    cases neg with
    | false =>
      simp only [Bool.false_eq_true, if_false, one_mul] at hq ⊢
      subst hq
      have hlt : ⌊(m : ℚ) * (2 : ℚ) ^ e⌋ < 2 ^ 63 := by
        rw [Int.floor_lt]; push_cast; exact hhi
      rw [if_pos ⟨by omega, by omega⟩, if_pos hx0, ht]
    | true =>
      simp only [if_true] at hq ⊢
      have hq2 : q = -((m : ℚ) * (2 : ℚ) ^ e) := by rw [← hq]; ring
      have hlt : ⌊(m : ℚ) * (2 : ℚ) ^ e⌋ < 2 ^ 63 := by
        rw [Int.floor_lt]; push_cast; rw [hq2] at hlo; linarith
      rw [if_pos ⟨by omega, by omega⟩, ht]
      by_cases hz : (m : ℚ) * (2 : ℚ) ^ e = 0
      · rw [hq2, hz]; simp
      · have hneg : ¬ (0 ≤ q) := by
          rw [hq2]
          have : 0 < (m : ℚ) * (2 : ℚ) ^ e := lt_of_le_of_ne hx0 (Ne.symm hz)
          linarith
        rw [if_neg hneg, hq2, Int.ceil_neg]

/-! ## C16: integers to float64 -/

/-- C16, as amended: for every value of any signed or unsigned integer type,
`convert2Float64` returns no error and the float `float64(n)`; the float's
mathematical value equals the integer exactly whenever the magnitude of the
integer is at most `2^53`, which holds for every value of the types of 8, 16
and 32 bits. -/
theorem convert2Float64_int_exact (k : IntKind) (n : Int) :
    convert2Float64 (.int k n) = .ok (F64.ofInt n) ∧
    (|n| ≤ 2 ^ 53 → F64.toRat (F64.ofInt n) = some (n : ℚ)) ∧
    (k ≠ .int → k ≠ .int64 → k ≠ .uint → k ≠ .uint64 → k.inRange n →
      F64.toRat (F64.ofInt n) = some (n : ℚ)) := by
  refine ⟨rfl, ofInt_toRat n, ?_⟩
  intro h1 h2 h3 h4 hr
  apply ofInt_toRat
  rw [abs_le]
  unfold IntKind.inRange at hr
  cases k <;> simp only [IntKind.min, IntKind.max, ne_eq, not_true_eq_false] at * <;> omega

/-- Witness of C16: the `int32` value `-2147483648` and the `int64` value
`2^53` convert exactly. -/
theorem convert2Float64_int_exact_witness :
    F64.toRat (F64.ofInt (2 ^ 53)) = some (((2 ^ 53 : Int) : ℚ)) ∧
    F64.toRat (F64.ofInt (-2147483648)) = some (((-2147483648 : Int) : ℚ)) :=
  ⟨(convert2Float64_int_exact .int64 (2 ^ 53)).2.1 (by rw [abs_le]; omega),
   (convert2Float64_int_exact .int32 (-2147483648)).2.2
     (by decide) (by decide) (by decide) (by decide)
     ⟨by simp [IntKind.min], by simp [IntKind.max]⟩⟩

/-- Counterexample to C16 as stated: the `int64` value `2^53 + 1`
(9007199254740993) converts without error to the float `2^52 * 2^1`, whose
value is `2^53`, not the integer. -/
theorem convert2Float64_int64_rounds :
    convert2Float64 (.int .int64 9007199254740993) = .ok (.fin false 4503599627370496 1) ∧
    F64.toRat (.fin false 4503599627370496 1) = some (9007199254740992 : ℚ) ∧
    (9007199254740992 : ℚ) ≠ ((9007199254740993 : Int) : ℚ) := by
  have h : F64.ofInt 9007199254740993 = .fin false 4503599627370496 1 := by decide
  refine ⟨congrArg Except.ok h, ?_, by norm_num⟩
  simp only [F64.toRat, Bool.false_eq_true, if_false, Option.some.injEq]
  norm_num

/-! ## C17: everything else parses its text -/

/-- C17, as amended: for every value whose type is not a built-in integer or
float type, `convert2Float64(v)` is the result of `strconv.ParseFloat` on the
text `convert2Str(v)`; so it returns a syntax error for null (text ""), for
every boolean and for every string that `ParseFloat` rejects, and
`isNumber(v)` is false exactly when it returns an error. -/
theorem convert2Float64_parses_text (v : Value) :
    ((∀ f, v ≠ .float64 f) → (∀ f, v ≠ .float32 f) → (∀ k n, v ≠ .int k n) →
      convert2Float64 v = parseFloat (convert2Str v)) ∧
    convert2Str .nil = "" ∧
    convert2Float64 .nil = .error (.numError "ParseFloat" "" false) ∧
    (∀ b, convert2Float64 (.bool b)
      = .error (.numError "ParseFloat" (if b then "true" else "false") false)) ∧
    (∀ s e, parseFloat s = .error e → convert2Float64 (.str s) = .error e) ∧
    (isNumber v = false ↔ ∃ e, convert2Float64 v = .error e) := by
  refine ⟨?_, rfl, rfl, ?_, ?_, isNumber_eq_false v⟩
  · intro h1 h2 h3
    cases v <;> first
      | rfl
      | exact absurd rfl (h1 _)
      | exact absurd rfl (h2 _)
      | exact absurd rfl (h3 _ _)
  · intro b
    cases b <;> rfl
  · intro s e h
    exact h

/-- Witness of C17: the string "12.5" is the number 12.5 and the string "abc"
is not a number. -/
theorem convert2Float64_parses_text_witness :
    convert2Float64 (.str "12.5") = parseFloat (convert2Str (.str "12.5")) ∧
    convert2Float64 (.str "abc") = .error (.numError "ParseFloat" "abc" false) ∧
    convert2Float64 (.str "12.5") = .ok (.fin false 7036874417766400 (-49)) :=
  ⟨(convert2Float64_parses_text (.str "12.5")).1
      (fun f h => by cases h) (fun f h => by cases h) (fun k n h => by cases h),
   (convert2Float64_parses_text .nil).2.2.2.2.1 "abc" _ rfl,
   rfl⟩

/-- Counterexample to C17 as stated: texts that are not decimal numerals
convert without error ("NaN", "-Infinity", the hexadecimal literal "0x1p-2"),
and a decimal numeral out of range ("1e400") is not a number. -/
theorem convert2Float64_beyond_decimal_numerals :
    convert2Float64 (.str "NaN") = .ok .nan ∧
    convert2Float64 (.str "-Infinity") = .ok (.inf true) ∧
    convert2Float64 (.str "0x1p-2") = .ok (.fin false 4503599627370496 (-54)) ∧
    isNumber (.str "NaN") = true ∧
    isNumber (.str "1e400") = false :=
  ⟨rfl, rfl, rfl, rfl, by decide!⟩

/-! ## C18: the text of an integer -/

/-- C18, the code at the failing input: the `uint64` values `2^63` and
`2^64 - 1` are rendered as the negative numbers `int(s)` wraps them to, not
as their decimal representations; integers that fit `int`, strings, byte
sequences and null are rendered as the claim says. -/
theorem convert2Str_uint64_wraps :
    IntKind.uint64.inRange 9223372036854775808 ∧
    convert2Str (.int .uint64 9223372036854775808) = "-9223372036854775808" ∧
    convert2Str (.int .uint64 18446744073709551615) = "-1" ∧
    convert2Str (.int .uint 9223372036854775808) = "-9223372036854775808" ∧
    convert2Str (.int .uint64 9223372036854775807) = "9223372036854775807" ∧
    convert2Str (.int .int8 (-5)) = "-5" ∧
    convert2Str (.str "007") = "007" ∧
    convert2Str (.bytes "raw") = "raw" ∧
    convert2Str .nil = "" := by
  refine ⟨⟨by simp [IntKind.min], by simp [IntKind.max]⟩, ?_, ?_, ?_, ?_, ?_, rfl, rfl, rfl⟩ <;>
    decide

/-! ## C19: the bitwise operators -/

theorem onFloatsBitwise_ok (l r ls rs : Value) (f : F64 → F64 → Value) (a b : F64)
    (hl : convert2Float64 l = .ok a) (hr : convert2Float64 r = .ok b) :
    onFloatsBitwise l r ls rs f = .returns (f a b) r ls none := by
  simp [onFloatsBitwise, hl, hr]

/-- C19: for integer-valued numeric operands `a` and `b` of magnitude below
`2^53`, `bitwiseNotStage(b)` returns `-b - 1`, the complement of the 64-bit
pattern of `b`, and `bitwiseAndStage`, `bitwiseOrStage`, `bitwiseXORStage`
return `a & b`, `a | b`, `a ^ b` computed on the 64-bit two's-complement
patterns, converted back to `float64`; and for any operands whose conversions
are finite floats of magnitude below `2^63`, fractional or not, the operators
work on the values truncated toward zero. -/
theorem bitwise_on_int64 (l r ls rs : Value) (p : Parameters) :
    (∀ b : Int, |b| < 2 ^ 53 → convert2Float64 r = .ok (F64.ofInt b) →
      bitwiseNotStage l r ls rs p = .returns (.float64 (F64.ofInt (-b - 1))) ls rs none ∧
      not64 b = -b - 1) ∧
    (∀ a b : Int, |a| < 2 ^ 53 → |b| < 2 ^ 53 →
      convert2Float64 l = .ok (F64.ofInt a) → convert2Float64 r = .ok (F64.ofInt b) →
      bitwiseAndStage l r ls rs p = .returns (.float64 (F64.ofInt (and64 a b))) r ls none ∧
      bitwiseOrStage l r ls rs p = .returns (.float64 (F64.ofInt (or64 a b))) r ls none ∧
      bitwiseXORStage l r ls rs p = .returns (.float64 (F64.ofInt (xor64 a b))) r ls none) ∧
    (∀ (y : F64) (qy : ℚ), convert2Float64 r = .ok y → F64.toRat y = some qy → |qy| < 2 ^ 63 →
      bitwiseNotStage l r ls rs p
        = .returns (.float64 (F64.ofInt (not64 (if 0 ≤ qy then ⌊qy⌋ else ⌈qy⌉)))) ls rs none) ∧
    (∀ (x y : F64) (qx qy : ℚ), convert2Float64 l = .ok x → convert2Float64 r = .ok y →
      F64.toRat x = some qx → F64.toRat y = some qy → |qx| < 2 ^ 63 → |qy| < 2 ^ 63 →
      bitwiseAndStage l r ls rs p
        = .returns (.float64 (F64.ofInt (and64 (if 0 ≤ qx then ⌊qx⌋ else ⌈qx⌉)
            (if 0 ≤ qy then ⌊qy⌋ else ⌈qy⌉)))) r ls none ∧
      bitwiseOrStage l r ls rs p
        = .returns (.float64 (F64.ofInt (or64 (if 0 ≤ qx then ⌊qx⌋ else ⌈qx⌉)
            (if 0 ≤ qy then ⌊qy⌋ else ⌈qy⌉)))) r ls none ∧
      bitwiseXORStage l r ls rs p
        = .returns (.float64 (F64.ofInt (xor64 (if 0 ≤ qx then ⌊qx⌋ else ⌈qx⌉)
            (if 0 ≤ qy then ⌊qy⌋ else ⌈qy⌉)))) r ls none) := by
  refine ⟨?_, ?_, ?_, ?_⟩
  · intro b hb hr
    have hb' := abs_lt.mp hb
    have hnot : not64 b = -b - 1 := not64_eq b (by omega) (by omega)
    exact ⟨by simp [bitwiseNotStage, hr, ofInt_toInt64 b hb, hnot], hnot⟩
  · intro a b ha hb hl hr
    refine ⟨?_, ?_, ?_⟩
    · simp [bitwiseAndStage, onFloatsBitwise_ok _ _ _ _ _ _ _ hl hr, ofInt_toInt64 a ha,
        ofInt_toInt64 b hb]
    · simp [bitwiseOrStage, onFloatsBitwise_ok _ _ _ _ _ _ _ hl hr, ofInt_toInt64 a ha,
        ofInt_toInt64 b hb]
    · simp [bitwiseXORStage, onFloatsBitwise_ok _ _ _ _ _ _ _ hl hr, ofInt_toInt64 a ha,
        ofInt_toInt64 b hb]
  · intro y qy hr hy hqy
    simp only [bitwiseNotStage, hr, toInt64_trunc y qy hy hqy]
  · intro x y qx qy hl hr hx hy hqx hqy
    have tx := toInt64_trunc x qx hx hqx
    have ty := toInt64_trunc y qy hy hqy
    refine ⟨?_, ?_, ?_⟩
    · simp only [bitwiseAndStage, onFloatsBitwise_ok _ _ _ _ _ _ _ hl hr, tx, ty]
    · simp only [bitwiseOrStage, onFloatsBitwise_ok _ _ _ _ _ _ _ hl hr, tx, ty]
    · simp only [bitwiseXORStage, onFloatsBitwise_ok _ _ _ _ _ _ _ hl hr, tx, ty]

/-- Witness of C19: `~5` is `-6`, `-8 & 12` is `8`, `-8 | 3` and `-8 ^ 3`
are `-5`, and `~2.5` is `~2 = -3`. -/
theorem bitwise_on_int64_witness :
    bitwiseNotStage .nil (.float64 (F64.ofInt 5)) .nil .nil noParameters
      = .returns (.float64 (F64.ofInt (-6))) .nil .nil none ∧
    bitwiseAndStage (.float64 (F64.ofInt (-8))) (.float64 (F64.ofInt 12)) .nil .nil noParameters
      = .returns (.float64 (F64.ofInt 8)) (.float64 (F64.ofInt 12)) .nil none ∧
    bitwiseOrStage (.float64 (F64.ofInt (-8))) (.float64 (F64.ofInt 3)) .nil .nil noParameters
      = .returns (.float64 (F64.ofInt (-5))) (.float64 (F64.ofInt 3)) .nil none ∧
    bitwiseXORStage (.float64 (F64.ofInt (-8))) (.float64 (F64.ofInt 3)) .nil .nil noParameters
      = .returns (.float64 (F64.ofInt (-5))) (.float64 (F64.ofInt 3)) .nil none ∧
    bitwiseNotStage .nil (.float64 (.fin false 5629499534213120 (-51))) .nil .nil noParameters
      = .returns (.float64 (F64.ofInt (not64 (if (0 : ℚ) ≤ 5 / 2 then ⌊(5 / 2 : ℚ)⌋
          else ⌈(5 / 2 : ℚ)⌉)))) .nil .nil none ∧
    bitwiseNotStage .nil (.float64 (.fin false 5629499534213120 (-51))) .nil .nil noParameters
      = .returns (.float64 (F64.ofInt (-3))) .nil .nil none := by
  have h0 := ((bitwise_on_int64 .nil (.float64 (F64.ofInt 5)) .nil .nil noParameters).1 5
    (by rw [abs_lt]; omega) rfl).1
  have h1 := (bitwise_on_int64 (.float64 (F64.ofInt (-8))) (.float64 (F64.ofInt 12)) .nil .nil
    noParameters).2.1 (-8) 12 (by rw [abs_lt]; omega) (by rw [abs_lt]; omega) rfl rfl
  have h2 := (bitwise_on_int64 (.float64 (F64.ofInt (-8))) (.float64 (F64.ofInt 3)) .nil .nil
    noParameters).2.1 (-8) 3 (by rw [abs_lt]; omega) (by rw [abs_lt]; omega) rfl rfl
  have h4 := (bitwise_on_int64 .nil (.float64 (.fin false 5629499534213120 (-51))) .nil .nil
    noParameters).2.2.1 (.fin false 5629499534213120 (-51)) (5 / 2)
    rfl (by simp only [F64.toRat]; norm_num) (by rw [abs_lt]; norm_num)
  exact ⟨h0, h1.1, h2.2.1, h2.2.2, h4, rfl⟩

/-! ## C20: the shifts -/

/-- C20, as amended: for integer-valued numeric operands `a` with
`0 ≤ a < 2^53` and shift counts `0 ≤ k < 64`, `leftShiftStage(a, k)` and
`rightShiftStage(a, k)` operate on the 64-bit unsigned truncation of `a`:
they return `float64(uint64(a) << k)`, the product `a * 2^k` reduced modulo
`2^64`, and `float64(uint64(a) >> k)`, the quotient of `a` by `2^k`. -/
theorem shifts_on_uint64 (l r ls rs : Value) (p : Parameters) (a k : Nat)
    (ha : a < 2 ^ 53) (hk : k < 64)
    (hl : convert2Float64 l = .ok (F64.ofInt a)) (hr : convert2Float64 r = .ok (F64.ofInt k)) :
    leftShiftStage l r ls rs p
      = .returns (.float64 (F64.ofInt ((a * 2 ^ k % 2 ^ 64 : Nat) : Int))) r ls none ∧
    rightShiftStage l r ls rs p
      = .returns (.float64 (F64.ofInt ((a / 2 ^ k : Nat) : Int))) r ls none := by
  have hk53 : k < 2 ^ 53 := by omega
  constructor
  · simp [leftShiftStage, onFloatsBitwise_ok _ _ _ _ _ _ _ hl hr, ofInt_toUint64 a ha,
      ofInt_toUint64 k hk53, shl64, hk]
  · simp [rightShiftStage, onFloatsBitwise_ok _ _ _ _ _ _ _ hl hr, ofInt_toUint64 a ha,
      ofInt_toUint64 k hk53, shr64, hk]

/-- Witness of C20: `8 >> 1` is 4 and `3 << 2` is 12. -/
theorem shifts_on_uint64_witness :
    leftShiftStage (.float64 (F64.ofInt 3)) (.float64 (F64.ofInt 2)) .nil .nil noParameters
      = .returns (.float64 (F64.ofInt 12)) (.float64 (F64.ofInt 2)) .nil none ∧
    rightShiftStage (.float64 (F64.ofInt 8)) (.float64 (F64.ofInt 1)) .nil .nil noParameters
      = .returns (.float64 (F64.ofInt 4)) (.float64 (F64.ofInt 1)) .nil none :=
  ⟨(shifts_on_uint64 (.float64 (F64.ofInt 3)) (.float64 (F64.ofInt 2)) .nil .nil noParameters
      3 2 (by norm_num) (by norm_num) rfl rfl).1,
   (shifts_on_uint64 (.float64 (F64.ofInt 8)) (.float64 (F64.ofInt 1)) .nil .nil noParameters
      8 1 (by norm_num) (by norm_num) rfl rfl).2⟩

/-- Counterexample to C20 as stated: `1 << 63` is computed on `uint64` and
returns the float `2^63`, where `float64(int64(1) << 63)` is `-2^63`; and
`-8 >> 1` does not return `-4` (the value shown is the one for the amd64
conversion of a negative float to `uint64`, `2^63 - 4` rounded to `2^63`). -/
theorem leftShiftStage_unsigned :
    leftShiftStage (.float64 (F64.ofInt 1)) (.float64 (F64.ofInt 63)) .nil .nil noParameters
      = .returns (.float64 (.fin false 4503599627370496 11)) (.float64 (F64.ofInt 63)) .nil none ∧
    F64.toRat (.fin false 4503599627370496 11) = some ((2 : ℚ) ^ 63) ∧
    F64.ofInt (toInt64 (1 * 2 ^ 63)) = .fin true 4503599627370496 11 ∧
    rightShiftStage (.float64 (F64.ofInt (-8))) (.float64 (F64.ofInt 1)) .nil .nil noParameters
      = .returns (.float64 (.fin false 4503599627370496 11)) (.float64 (F64.ofInt 1)) .nil none ∧
    F64.ofInt (-4) = .fin true 4503599627370496 (-50) := by
  refine ⟨rfl, ?_, by decide, rfl, by decide⟩
  simp only [F64.toRat, Bool.false_eq_true, if_false, Option.some.injEq]
  norm_num

/-! ## C12: fields and methods of a structure -/

/-- C12, the code at the failing input: over the path `obj.Name`, with `obj`
a structure whose field `Name` is "x", the data accessor (`isFunction` false)
looks for a method and returns the error "No method or field", while the
accessor with `isFunction` true returns the field "x"; over `obj.Greet`, with
`Greet` a method, the accessor with `isFunction` true returns the error
"Unable to access" without a call, while the one with `isFunction` false
invokes the method.  A name that is neither a field nor a method yields an
error under both. -/
theorem makeAccessorStage_field_under_isFunction :
    makeAccessorStage userReflection ["obj", "Name"] false .nil .nil .nil .nil userParameters
      = .returns .nil .nil .nil
          (some (.message "No method or field 'Name' present on parameter 'obj'")) ∧
    makeAccessorStage userReflection ["obj", "Name"] true .nil .nil .nil .nil userParameters
      = .returns (.str "x") .nil .nil none ∧
    makeAccessorStage userReflection ["obj", "Greet"] true .nil .nil .nil .nil userParameters
      = .returns .nil .nil .nil
          (some (.message "Unable to access 'Greet', 'obj' is not a struct or map")) ∧
    makeAccessorStage userReflection ["obj", "Greet"] false .nil .nil .nil .nil userParameters
      = .returns (.str "hi") .nil .nil none ∧
    makeAccessorStage userReflection ["obj", "Nope"] false .nil .nil .nil .nil userParameters
      = .returns .nil .nil .nil
          (some (.message "No method or field 'Nope' present on parameter 'obj'")) ∧
    makeAccessorStage userReflection ["obj", "Nope"] true .nil .nil .nil .nil userParameters
      = .returns .nil .nil .nil
          (some (.message "Unable to access 'Nope', 'obj' is not a struct or map")) :=
  ⟨rfl, rfl, rfl, rfl, rfl, rfl⟩

/-! ## C13: panics at the accessor boundary -/

/-- C13, the code at the failing input: a method that panics with a run-time
error (a nil pointer dereference), and a call with a nil argument, on which
`reflect` panics with a `*reflect.ValueError`, make the accessor panic: the
deferred function asserts the recovered value to be a string, and the
assertion panics on any other value.  Only a panic whose value is a string
is turned into the error "Failed to access". -/
theorem makeAccessorStage_panic_escapes :
    makeAccessorStage userReflection ["obj", "Boom"] false .nil .nil .nil .nil userParameters
      = .panics (.runtimeError "interface conversion") ∧
    makeAccessorStage userReflection ["obj", "Echo"] false .nil (.seq [.nil]) .nil .nil
        userParameters
      = .panics (.runtimeError "interface conversion") ∧
    makeAccessorStage userReflection ["obj", "Fail"] false .nil .nil .nil .nil userParameters
      = .returns .nil .nil .nil (some (.message "Failed to access 'obj.Fail': boom")) ∧
    (∀ (path : String) (ls rs : Value) (r : String),
      recoverAccess path ls rs (.panics (.value (.str r)))
        = .returns .nil ls rs (some (.message ("Failed to access '" ++ path ++ "': " ++ r)))) ∧
    (∀ (path : String) (ls rs : Value) (t : String),
      recoverAccess path ls rs (.panics (.runtimeError t))
        = .panics (.runtimeError "interface conversion")) ∧
    (∀ (path : String) (ls rs : Value) (h : Host),
      recoverAccess path ls rs (.panics (.value (.host h)))
        = .panics (.runtimeError "interface conversion")) :=
  ⟨rfl, rfl, rfl, fun _ _ _ _ => rfl, fun _ _ _ _ => rfl, fun _ _ _ _ => rfl⟩

/-! ## C14: what a method returns -/

/-- C14: when an accessor stage invokes a method (the current value is a
structure or a pointer to one, the method is found, the arguments convert and
the call returns): a single returned value becomes the current value; of two
returned values, a second that is a non-null error is returned as the error
of the accessor, and otherwise (a null second value) the first value becomes
the current value; no value and more than two values yield an error.  At the
end of the path the current value is returned through `castToFloat64`. -/
theorem accessor_method_results (R : Reflection) (pair0 pair1 prev name : String)
    (rest : List String) (right ls rs value : Value)
    (corePtrVal : Option (String → Option Method))
    (fields : String → Option Field) (methods : String → Option Method)
    (method : Method) (params values : List Value)
    (hres : resolvePointer R value = (corePtrVal, .struct fields methods))
    (hm : lookupMethod methods corePtrVal name = some method)
    (hp : typeConvertParams R method (givenParams right) = .ok params)
    (hc : method.call params = .returns values) :
    (∀ v, values = [v] →
      accessorLoop R false pair0 pair1 right ls rs prev (name :: rest) value
        = accessorLoop R false pair0 pair1 right ls rs name rest v) ∧
    (∀ v e err, values = [v, e] → asError R e = some err →
      accessorLoop R false pair0 pair1 right ls rs prev (name :: rest) value
        = .returns v ls rs (some err)) ∧
    (∀ v e, values = [v, e] → asError R e = none →
      accessorLoop R false pair0 pair1 right ls rs prev (name :: rest) value
        = accessorLoop R false pair0 pair1 right ls rs name rest v) ∧
    asError R .nil = none ∧
    ((values = [] ∨ 2 < values.length) →
      ∃ text, accessorLoop R false pair0 pair1 right ls rs prev (name :: rest) value
        = .returns .nil ls rs (some (.message text))) ∧
    (∀ v, accessorLoop R false pair0 pair1 right ls rs name [] v
        = .returns (castToFloat64 v) ls rs none) := by
  refine ⟨?_, ?_, ?_, rfl, ?_, fun _ => rfl⟩
  · intro v hv
    subst hv
    simp [accessorLoop, hres, hm, hp, hc]
  · intro v e err hv he
    subst hv
    simp [accessorLoop, hres, hm, hp, hc, he]
  · intro v e hv he
    subst hv
    simp [accessorLoop, hres, hm, hp, hc, he]
  · intro hv
    rcases hv with hv | hv
    · subst hv
      exact ⟨"Method call '" ++ prev ++ "." ++ name ++ "' did not return any values.",
        by simp [accessorLoop, hres, hm, hp, hc]⟩
    · match values, hv, hc with
      | a :: b :: c :: more, _, hc =>
        exact ⟨"Unable to access '" ++ name ++ "', '" ++ prev ++ "' is not a struct or map",
          by simp [accessorLoop, hres, hm, hp, hc, unableToAccess]⟩

/-- Witness of C14: on the structure `obj`, `Greet` returns one value, `Pair`
a value and a nil error, `Err` a value and an error, `None` nothing and
`Three` three values. -/
theorem accessor_method_results_witness :
    makeAccessorStage userReflection ["obj", "Greet"] false .nil .nil .nil .nil userParameters
      = .returns (.str "hi") .nil .nil none ∧
    makeAccessorStage userReflection ["obj", "Pair"] false .nil .nil .nil .nil userParameters
      = .returns (.str "hi") .nil .nil none ∧
    makeAccessorStage userReflection ["obj", "Err"] false .nil .nil .nil .nil userParameters
      = .returns (.str "hi") .nil .nil (some (.message "bad")) ∧
    (∃ text, makeAccessorStage userReflection ["obj", "None"] false .nil .nil .nil .nil
      userParameters = .returns .nil .nil .nil (some (.message text))) ∧
    (∃ text, makeAccessorStage userReflection ["obj", "Three"] false .nil .nil .nil .nil
      userParameters = .returns .nil .nil .nil (some (.message text))) := by
  have h := fun (name : String) (m : Method) (vs : List Value)
      (hm : lookupMethod userMethods none name = some m)
      (hp : typeConvertParams userReflection m (givenParams .nil) = .ok [])
      (hc : m.call [] = .returns vs) =>
    accessor_method_results userReflection "obj" name "obj" name [] .nil .nil .nil
      (.host userHost) none _ userMethods m [] vs rfl hm hp hc
  refine ⟨?_, ?_, ?_, ?_, ?_⟩
  · have h1 := (h "Greet" _ [.str "hi"] rfl rfl rfl).1 (.str "hi") rfl
    exact congrArg (recoverAccess "obj.Greet" .nil .nil) h1
  · have h1 := (h "Pair" _ [.str "hi", .nil] rfl rfl rfl).2.2.1 (.str "hi") .nil rfl rfl
    exact congrArg (recoverAccess "obj.Pair" .nil .nil) h1
  · have h1 := (h "Err" _ [.str "hi", .host errHost] rfl rfl rfl).2.1 (.str "hi")
      (.host errHost) (.message "bad") rfl rfl
    exact congrArg (recoverAccess "obj.Err" .nil .nil) h1
  · obtain ⟨text, h1⟩ := (h "None" _ [] rfl rfl rfl).2.2.2.2.1 (Or.inl rfl)
    exact ⟨text, congrArg (recoverAccess "obj.None" .nil .nil) h1⟩
  · obtain ⟨text, h1⟩ := (h "Three" _ [.str "a", .str "b", .str "c"] rfl rfl rfl).2.2.2.2.1
      (Or.inr (by decide))
    exact ⟨text, congrArg (recoverAccess "obj.Three" .nil .nil) h1⟩

/-! ## C15: host functions -/

/-- C15: the behaviour built by `makeFunctionStage(f)` calls `f` with no
arguments when `right` is nil, with the elements of `right` in order when it
is an argument sequence, and with the single argument `right` otherwise; the
value and the error that `f` returns are returned unchanged, with `leftStage`
and `rightStage` passed through. -/
theorem makeFunctionStage_calls (f : ExpressionFunction) (l r ls rs : Value) (p : Parameters) :
    (r = .nil → makeFunctionStage f l r ls rs p = (f []).toOutcome ls rs) ∧
    (∀ args, r = .seq args → makeFunctionStage f l r ls rs p = (f args).toOutcome ls rs) ∧
    (r ≠ .nil → (∀ args, r ≠ .seq args) →
      makeFunctionStage f l r ls rs p = (f [r]).toOutcome ls rs) ∧
    (∀ v e, CallResult.toOutcome (.returns v e) ls rs = .returns v ls rs e) := by
  refine ⟨?_, ?_, ?_, fun _ _ => rfl⟩
  · intro h; subst h; rfl
  · intro args h; subst h; rfl
  · intro h1 h2
    cases r <;> first
      | rfl
      | exact absurd rfl h1
      | exact absurd rfl (h2 _)

/-- Witness of C15: a function that counts its arguments gets none from a nil
right-hand value, two from a sequence of two, and one from a single value. -/
theorem makeFunctionStage_calls_witness :
    makeFunctionStage countArguments .nil .nil .nil .nil noParameters
      = .returns (.float64 (F64.ofInt 0)) .nil .nil none ∧
    makeFunctionStage countArguments .nil (.seq [.str "a", .str "b"]) .nil .nil noParameters
      = .returns (.float64 (F64.ofInt 2)) .nil .nil none ∧
    makeFunctionStage countArguments .nil (.str "a") .nil .nil noParameters
      = .returns (.float64 (F64.ofInt 1)) .nil .nil none :=
  ⟨(makeFunctionStage_calls countArguments .nil .nil .nil .nil noParameters).1 rfl,
   (makeFunctionStage_calls countArguments .nil (.seq [.str "a", .str "b"]) .nil .nil
      noParameters).2.1 _ rfl,
   (makeFunctionStage_calls countArguments .nil (.str "a") .nil .nil noParameters).2.2.1
      (fun h => by cases h) (fun _ h => by cases h)⟩

/-! ## C21: the carry slots -/

theorem onFloats_carry (l r ls rs : Value) (f : F64 → F64 → Value) :
    (onFloats l r ls rs f).carry = some (ls, rs) := by
  unfold onFloats
  cases convert2Float64 l with
  | error e => rfl
  | ok x =>
    cases convert2Float64 r with
    | error e => rfl
    | ok y => rfl

theorem comparator_carry (l r ls rs : Value) (f : String → String → Bool)
    (g : F64 → F64 → Value) :
    (if (isString l && isString r) = true then onStrings l r ls rs f
      else onFloats l r ls rs g).carry = some (ls, rs) := by
  by_cases hs : (isString l && isString r) = true
  · obtain ⟨b, hb⟩ := onStrings_of_strings l r ls rs f hs
    simp only [hs, if_true, hb]
    rfl
  · simp only [hs]
    exact onFloats_carry l r ls rs g

theorem accessorLoop_carry (R : Reflection) (isFunction : Bool) (pair0 pair1 : String)
    (right ls rs : Value) (rest : List String) :
    ∀ (prev : String) (value : Value),
      (accessorLoop R isFunction pair0 pair1 right ls rs prev rest value).carry = some (ls, rs) ∨
      ∃ pv, accessorLoop R isFunction pair0 pair1 right ls rs prev rest value = .panics pv := by
  induction rest with
  | nil => intro prev value; exact Or.inl rfl
  | cons name rest ih =>
    intro prev value
    unfold accessorLoop
    repeat' split
    all_goals first
      | exact ih _ _
      | exact Or.inl rfl
      | exact Or.inr ⟨_, rfl⟩

theorem makeAccessorStage_carry (R : Reflection) (pair : List String) (isFunction : Bool)
    (l r ls rs : Value) (p : Parameters) :
    (makeAccessorStage R pair isFunction l r ls rs p).carry = some (ls, rs) ∨
    ∃ pv, makeAccessorStage R pair isFunction l r ls rs p = .panics pv := by
  unfold makeAccessorStage
  cases pair with
  | nil => exact Or.inr ⟨_, rfl⟩
  | cons root rest =>
    simp only
    cases p.Get root with
    | error e => exact Or.inl rfl
    | ok value =>
      simp only
      rcases accessorLoop_carry R isFunction root (rest.headD "") r ls rs rest root value
        with h | ⟨pv, h⟩
      · generalize accessorLoop R isFunction root (rest.headD "") r ls rs root rest value = out at h
        cases out with
        | returns v a b e => exact Or.inl h
        | panics pv => cases h
      · rw [h]
        cases pv with
        | runtimeError t => exact Or.inr ⟨_, rfl⟩
        | value v => cases v <;> first | exact Or.inr ⟨_, rfl⟩ | exact Or.inl rfl

theorem regexStage_carry (re : Regexp) (l r ls rs : Value) (p : Parameters) :
    (∃ v e, regexStage re l r ls rs p = .returns v ls rs e) ∨
    ∃ pv, regexStage re l r ls rs p = .panics pv := by
  unfold regexStage
  repeat' split
  all_goals first
    | exact Or.inl ⟨_, _, rfl⟩
    | exact Or.inr ⟨_, rfl⟩

/-- C21: on success (both operands convert) each of `bitwiseOrStage`,
`bitwiseAndStage`, `bitwiseXORStage`, `leftShiftStage` and `rightShiftStage`
returns the right operand as its second result and `leftStage` as its third,
and on a conversion error it returns `leftStage` and `rightStage`; every other
operator behaviour of the file, `separatorStage` apart, returns `leftStage`
and `rightStage` as its second and third results whenever it returns, with or
without an error: the ones of the second list always return, the ones of the
third list return or panic. -/
theorem carry_slots (Pow : F64 → F64 → F64) (re : Regexp) (function : ExpressionFunction)
    (R : Reflection) (pair : List String) (isFunction : Bool) (parameterName : String)
    (literal l r ls rs : Value) (p : Parameters) :
    (∀ op ∈ ([bitwiseOrStage, bitwiseAndStage, bitwiseXORStage, leftShiftStage,
        rightShiftStage] : List evaluationOperator),
      (∀ x y, convert2Float64 l = .ok x → convert2Float64 r = .ok y →
        ∃ v, op l r ls rs p = .returns (.float64 v) r ls none) ∧
      (∀ e, convert2Float64 l = .error e → op l r ls rs p = .returns .nil ls rs (some e)) ∧
      (∀ x e, convert2Float64 l = .ok x → convert2Float64 r = .error e →
        op l r ls rs p = .returns .nil ls rs (some e))) ∧
    (∀ op ∈ ([noopStageRight, addStage, subtractStage, multiplyStage, divideStage,
        exponentStage Pow, modulusStage, gteStage, gtStage, lteStage, ltStage, equalStage,
        notEqualStage, negateStage, bitwiseNotStage, ternaryElseStage,
        makeParameterStage parameterName, makeLiteralStage literal] : List evaluationOperator),
      (op l r ls rs p).carry = some (ls, rs)) ∧
    (∀ op ∈ ([andStage, orStage, invertStage, ternaryIfStage, regexStage re, notRegexStage re,
        inStage, makeFunctionStage function,
        makeAccessorStage R pair isFunction] : List evaluationOperator),
      (op l r ls rs p).carry = some (ls, rs) ∨ ∃ pv, op l r ls rs p = .panics pv) := by
  refine ⟨?_, ?_, ?_⟩
  · intro op hop
    simp only [List.mem_cons, List.mem_singleton, List.not_mem_nil, or_false] at hop
    refine ⟨?_, ?_, ?_⟩
    · intro x y hx hy
      rcases hop with h | h | h | h | h <;> subst h <;>
        exact ⟨_, onFloatsBitwise_ok l r ls rs _ x y hx hy⟩
    · intro e he
      rcases hop with h | h | h | h | h <;> subst h <;>
        simp [bitwiseOrStage, bitwiseAndStage, bitwiseXORStage, leftShiftStage,
          rightShiftStage, onFloatsBitwise, he]
    · intro x e hx he
      rcases hop with h | h | h | h | h <;> subst h <;>
        simp [bitwiseOrStage, bitwiseAndStage, bitwiseXORStage, leftShiftStage,
          rightShiftStage, onFloatsBitwise, hx, he]
  · intro op hop
    simp only [List.mem_cons, List.mem_singleton, List.not_mem_nil, or_false] at hop
    rcases hop with h | h | h | h | h | h | h | h | h | h | h | h | h | h | h | h | h | h <;>
      subst h
    · rfl
    · unfold addStage
      split
      · rfl
      · exact onFloats_carry _ _ _ _ _
    · exact onFloats_carry _ _ _ _ _
    · exact onFloats_carry _ _ _ _ _
    · exact onFloats_carry _ _ _ _ _
    · exact onFloats_carry _ _ _ _ _
    · exact onFloats_carry _ _ _ _ _
    · exact comparator_carry _ _ _ _ _ _
    · exact comparator_carry _ _ _ _ _ _
    · exact comparator_carry _ _ _ _ _ _
    · exact comparator_carry _ _ _ _ _ _
    · exact comparator_carry _ _ _ _ _ _
    · exact comparator_carry _ _ _ _ _ _
    · unfold negateStage
      cases convert2Float64 r <;> rfl
    · unfold bitwiseNotStage
      cases convert2Float64 r <;> rfl
    · cases l <;> rfl
    · unfold makeParameterStage
      cases p.Get parameterName <;> rfl
    · rfl
  · intro op hop
    simp only [List.mem_cons, List.mem_singleton, List.not_mem_nil, or_false] at hop
    rcases hop with h | h | h | h | h | h | h | h | h <;> subst h
    · unfold andStage
      repeat' split
      all_goals first
        | exact Or.inl rfl
        | exact Or.inr ⟨_, rfl⟩
    · unfold orStage
      repeat' split
      all_goals first
        | exact Or.inl rfl
        | exact Or.inr ⟨_, rfl⟩
    · unfold invertStage
      split
      · exact Or.inl rfl
      · exact Or.inr ⟨_, rfl⟩
    · unfold ternaryIfStage
      split
      · exact Or.inl rfl
      · exact Or.inl rfl
      · exact Or.inr ⟨_, rfl⟩
    · rcases regexStage_carry re l r ls rs p with ⟨v, e, h⟩ | ⟨pv, h⟩
      · rw [h]; exact Or.inl rfl
      · exact Or.inr ⟨pv, h⟩
    · unfold notRegexStage
      rcases regexStage_carry re l r ls rs p with ⟨v, e, h⟩ | ⟨pv, h⟩
      · rw [h]
        cases e with
        | some err => exact Or.inl rfl
        | none =>
          cases v <;> first
            | exact Or.inl rfl
            | exact Or.inr ⟨_, rfl⟩
      · rw [h]; exact Or.inr ⟨pv, rfl⟩
    · unfold inStage
      repeat' split
      all_goals first
        | exact Or.inl rfl
        | exact Or.inr ⟨_, rfl⟩
    · unfold makeFunctionStage
      cases r with
      | nil =>
        simp only
        cases function [] with
        | returns v e => exact Or.inl rfl
        | panics pv => exact Or.inr ⟨_, rfl⟩
      | seq args =>
        simp only
        cases function args with
        | returns v e => exact Or.inl rfl
        | panics pv => exact Or.inr ⟨_, rfl⟩
      | _ =>
        simp only
        generalize function _ = res
        cases res with
        | returns v e => exact Or.inl rfl
        | panics pv => exact Or.inr ⟨_, rfl⟩
    · exact makeAccessorStage_carry R pair isFunction l r ls rs p

/-- Witness of C21: with the carried stages "L" and "R", `1 | 2` returns 3
with the right operand 2 and "L" in the carry slots, `5 - 2` returns them
unchanged, and so does the regular-expression match of "a" against "a". -/
theorem carry_slots_witness :
    (∃ v, bitwiseOrStage (.float64 (F64.ofInt 1)) (.float64 (F64.ofInt 2)) (.str "L") (.str "R")
      noParameters = .returns (.float64 v) (.float64 (F64.ofInt 2)) (.str "L") none) ∧
    bitwiseOrStage (.str "x") (.float64 (F64.ofInt 2)) (.str "L") (.str "R") noParameters
      = .returns .nil (.str "L") (.str "R") (some (.numError "ParseFloat" "x" false)) ∧
    (subtractStage (.float64 (F64.ofInt 5)) (.float64 (F64.ofInt 2)) (.str "L") (.str "R")
      noParameters).carry = some (.str "L", .str "R") ∧
    (regexStage exactRegexp (.str "a") (.str "a") (.str "L") (.str "R") noParameters).carry
      = some (.str "L", .str "R") := by
  have h := carry_slots (fun x _ => x) exactRegexp countArguments userReflection ["obj"] false
    "x" .nil
  refine ⟨?_, ?_, ?_, ?_⟩
  · exact ((h (.float64 (F64.ofInt 1)) (.float64 (F64.ofInt 2)) (.str "L") (.str "R")
      noParameters).1 bitwiseOrStage (List.Mem.head _)).1 _ _ rfl rfl
  · exact ((h (.str "x") (.float64 (F64.ofInt 2)) (.str "L") (.str "R")
      noParameters).1 bitwiseOrStage (List.Mem.head _)).2.1 _ rfl
  · exact (h (.float64 (F64.ofInt 5)) (.float64 (F64.ofInt 2)) (.str "L") (.str "R")
      noParameters).2.1 subtractStage (List.Mem.tail _ (List.Mem.tail _ (List.Mem.head _)))
  · rcases (h (.str "a") (.str "a") (.str "L") (.str "R") noParameters).2.2
      (regexStage exactRegexp) (List.Mem.tail _ (List.Mem.tail _ (List.Mem.tail _
        (List.Mem.tail _ (List.Mem.head _))))) with h1 | ⟨pv, h1⟩
    · exact h1
    · cases h1

/-! ## C22: inequality against equality -/

theorem F64_eq_symm (a b : F64) : F64.eq a b = F64.eq b a := by
  cases a with
  | nan => cases b <;> rfl
  | inf s =>
    cases b with
    | nan => rfl
    | inf t => cases s <;> cases t <;> rfl
    | fin t m e => cases s <;> rfl
  | fin s m e =>
    cases b with
    | nan => rfl
    | inf t => cases t <;> rfl
    | fin t n f =>
      simp only [F64.eq, F64.cmp, min_comm f e]
      generalize F64.aligned s m e (e ⊓ f) = x
      generalize F64.aligned t n f (e ⊓ f) = y
      rcases lt_trichotomy x y with h | h | h
      · rw [compare_lt_iff_lt.2 h, compare_gt_iff_gt.2 h]; rfl
      · subst h; rfl
      · rw [compare_gt_iff_gt.2 h, compare_lt_iff_lt.2 h]; rfl

theorem equalStage_cases (l r ls rs : Value) (p : Parameters) :
    (∃ a b, l = .str a ∧ r = .str b ∧
      equalStage l r ls rs p = .returns (.bool (decide (a = b))) ls rs none ∧
      notEqualStage l r ls rs p = .returns (.bool (!decide (a = b))) ls rs none) ∨
    ((isString l && isString r) = false ∧
      ((∃ x y, convert2Float64 l = .ok x ∧ convert2Float64 r = .ok y ∧
          equalStage l r ls rs p = .returns (.bool (F64.eq x y)) ls rs none ∧
          notEqualStage l r ls rs p = .returns (.bool (!F64.eq x y)) ls rs none) ∨
        (∃ e, convert2Float64 l = .error e ∧
          equalStage l r ls rs p = .returns .nil ls rs (some e) ∧
          notEqualStage l r ls rs p = .returns .nil ls rs (some e)) ∨
        (∃ x e, convert2Float64 l = .ok x ∧ convert2Float64 r = .error e ∧
          equalStage l r ls rs p = .returns .nil ls rs (some e) ∧
          notEqualStage l r ls rs p = .returns .nil ls rs (some e)))) := by
  by_cases hs : (isString l && isString r) = true
  · left
    have hs2 := hs
    simp only [Bool.and_eq_true] at hs2
    obtain ⟨a, ha⟩ := (isString_eq_true l).1 hs2.1
    obtain ⟨b, hb⟩ := (isString_eq_true r).1 hs2.2
    subst ha hb
    exact ⟨a, b, rfl, rfl, by simp [equalStage, isString, onStrings_str],
      by simp [notEqualStage, isString, onStrings_str]⟩
  · right
    have hs2 : (isString l && isString r) = false := by simpa using hs
    refine ⟨hs2, ?_⟩
    cases hl : convert2Float64 l with
    | error e =>
      right; left
      exact ⟨e, rfl, by simp [equalStage, hs2, onFloats_left_error _ _ _ _ _ e hl],
        by simp [notEqualStage, hs2, onFloats_left_error _ _ _ _ _ e hl]⟩
    | ok x =>
      cases hr : convert2Float64 r with
      | error e =>
        right; right
        exact ⟨x, e, rfl, rfl, by simp [equalStage, hs2, onFloats_right_error _ _ _ _ _ x e hl hr],
          by simp [notEqualStage, hs2, onFloats_right_error _ _ _ _ _ x e hl hr]⟩
      | ok y =>
        left
        exact ⟨x, y, rfl, rfl,
          by simp [equalStage, hs2, onFloats_ok _ _ _ _ _ x y hl hr, boolIface_eq],
          by simp [notEqualStage, hs2, onFloats_ok _ _ _ _ _ x y hl hr, boolIface_eq]⟩

/-- C22, as amended: `notEqualStage` is the negation of `equalStage`: it
returns an error exactly when `equalStage` does, and the same one; when both
succeed its boolean is the negation of the boolean of `equalStage`; one of the
two always happens.  Exchanging `left` and `right` leaves both results
unchanged whenever the two operands are strings or at least one of them
converts to a number; when neither converts, both orders return an error, each
that of its own left operand. -/
theorem notEqualStage_negates_equalStage (l r ls rs : Value) (p : Parameters) :
    (∀ e, equalStage l r ls rs p = .returns .nil ls rs (some e) ↔
      notEqualStage l r ls rs p = .returns .nil ls rs (some e)) ∧
    (∀ b, equalStage l r ls rs p = .returns (.bool b) ls rs none ↔
      notEqualStage l r ls rs p = .returns (.bool (!b)) ls rs none) ∧
    ((∃ e, equalStage l r ls rs p = .returns .nil ls rs (some e)) ∨
      (∃ b, equalStage l r ls rs p = .returns (.bool b) ls rs none)) ∧
    (((isString l && isString r) = true ∨ isNumber l = true ∨ isNumber r = true) →
      equalStage l r ls rs p = equalStage r l ls rs p ∧
      notEqualStage l r ls rs p = notEqualStage r l ls rs p) ∧
    (∀ e1 e2, (isString l && isString r) = false →
      convert2Float64 l = .error e1 → convert2Float64 r = .error e2 →
      equalStage l r ls rs p = .returns .nil ls rs (some e1) ∧
      equalStage r l ls rs p = .returns .nil ls rs (some e2) ∧
      notEqualStage l r ls rs p = .returns .nil ls rs (some e1) ∧
      notEqualStage r l ls rs p = .returns .nil ls rs (some e2)) := by
  refine ⟨?_, ?_, ?_, ?_, ?_⟩
  · intro e
    rcases equalStage_cases l r ls rs p with ⟨a, b, _, _, h1, h2⟩ |
      ⟨_, ⟨x, y, _, _, h1, h2⟩ | ⟨e1, _, h1, h2⟩ | ⟨x, e1, _, _, h1, h2⟩⟩ <;>
      rw [h1, h2] <;> simp
  · intro b
    rcases equalStage_cases l r ls rs p with ⟨a, c, _, _, h1, h2⟩ |
      ⟨_, ⟨x, y, _, _, h1, h2⟩ | ⟨e1, _, h1, h2⟩ | ⟨x, e1, _, _, h1, h2⟩⟩ <;>
      rw [h1, h2] <;> simp
  · rcases equalStage_cases l r ls rs p with ⟨a, b, _, _, h1, _⟩ |
      ⟨_, ⟨x, y, _, _, h1, _⟩ | ⟨e1, _, h1, _⟩ | ⟨x, e1, _, _, h1, _⟩⟩
    · exact Or.inr ⟨_, h1⟩
    · exact Or.inr ⟨_, h1⟩
    · exact Or.inl ⟨_, h1⟩
    · exact Or.inl ⟨_, h1⟩
  · intro h
    rcases equalStage_cases l r ls rs p with ⟨a, b, ha, hb, h1, h2⟩ |
      ⟨hs, ⟨x, y, hx, hy, h1, h2⟩ | ⟨e1, hl, h1, h2⟩ | ⟨x, e1, hx, hr, h1, h2⟩⟩
    · subst ha hb
      rw [h1, h2]
      simp [equalStage, notEqualStage, isString, onStrings_str, eq_comm]
    · have hs2 : (isString r && isString l) = false := by rw [Bool.and_comm]; exact hs
      rw [h1, h2]
      simp [equalStage, notEqualStage, hs2, onFloats_ok _ _ _ _ _ y x hy hx, boolIface_eq,
        F64_eq_symm x y]
    · have hs2 : (isString r && isString l) = false := by rw [Bool.and_comm]; exact hs
      have hnl : isNumber l = false := (isNumber_eq_false l).2 ⟨e1, hl⟩
      rcases h with h | h | h
      · rw [hs] at h; cases h
      · rw [hnl] at h; cases h
      · obtain ⟨y, hy⟩ := (isNumber_eq_true r).1 h
        rw [h1, h2]
        simp [equalStage, notEqualStage, hs2, onFloats_right_error _ _ _ _ _ y e1 hy hl]
    · have hs2 : (isString r && isString l) = false := by rw [Bool.and_comm]; exact hs
      rw [h1, h2]
      simp [equalStage, notEqualStage, hs2, onFloats_left_error _ _ _ _ _ e1 hr]
  · intro e1 e2 hs hl hr
    have hs2 : (isString r && isString l) = false := by rw [Bool.and_comm]; exact hs
    simp [equalStage, notEqualStage, hs, hs2, onFloats_left_error _ _ _ _ _ e1 hl,
      onFloats_left_error _ _ _ _ _ e2 hr]

/-- Witness of C22: the floats 2 and 2 are equal and not unequal, in both
orders; null against the number 1 yields the error of null in both orders. -/
theorem notEqualStage_negates_equalStage_witness :
    notEqualStage (.float64 (F64.ofInt 2)) (.int .int (2 : Int)) .nil .nil noParameters
      = .returns (.bool false) .nil .nil none ∧
    equalStage (.float64 (F64.ofInt 2)) (.int .int (2 : Int)) .nil .nil noParameters
      = equalStage (.int .int (2 : Int)) (.float64 (F64.ofInt 2)) .nil .nil noParameters ∧
    equalStage .nil (.float64 (F64.ofInt 1)) .nil .nil noParameters
      = equalStage (.float64 (F64.ofInt 1)) .nil .nil .nil noParameters :=
  ⟨((notEqualStage_negates_equalStage (.float64 (F64.ofInt 2)) (.int .int (2 : Int))
      .nil .nil noParameters).2.1 true).1 rfl,
   ((notEqualStage_negates_equalStage (.float64 (F64.ofInt 2)) (.int .int (2 : Int))
      .nil .nil noParameters).2.2.2.1 (Or.inr (Or.inl rfl))).1,
   ((notEqualStage_negates_equalStage .nil (.float64 (F64.ofInt 1))
      .nil .nil noParameters).2.2.2.1 (Or.inr (Or.inr rfl))).1⟩

/-- Counterexample to C22 as stated: null and the boolean true both fail to
convert; `equalStage` and `notEqualStage` report the failure of the left
operand, so exchanging the operands changes the result. -/
theorem equalStage_exchange_changes_error :
    equalStage .nil (.bool true) .nil .nil noParameters
      = .returns .nil .nil .nil (some (.numError "ParseFloat" "" false)) ∧
    equalStage (.bool true) .nil .nil .nil noParameters
      = .returns .nil .nil .nil (some (.numError "ParseFloat" "true" false)) ∧
    notEqualStage .nil (.bool true) .nil .nil noParameters
      = .returns .nil .nil .nil (some (.numError "ParseFloat" "" false)) ∧
    notEqualStage (.bool true) .nil .nil .nil noParameters
      = .returns .nil .nil .nil (some (.numError "ParseFloat" "true" false)) ∧
    equalStage .nil (.bool true) .nil .nil noParameters
      ≠ equalStage (.bool true) .nil .nil .nil noParameters := by
  refine ⟨rfl, rfl, rfl, rfl, ?_⟩
  intro h
  have h1 : equalStage .nil (.bool true) .nil .nil noParameters
      = .returns .nil .nil .nil (some (.numError "ParseFloat" "" false)) := rfl
  have h2 : equalStage (.bool true) .nil .nil .nil noParameters
      = .returns .nil .nil .nil (some (.numError "ParseFloat" "true" false)) := rfl
  rw [h1, h2] at h
  injection h with _ _ _ h3
  injection h3 with h4
  injection h4 with _ h5
  exact absurd h5 (by decide)

/-! ## C23: swapping two stages -/

theorem swapWith_eq (heap : StageHeap) (a b : Nat) :
    swapWith heap (some a) (some b)
      = .ok (((heap.store b
          ⟨(heap a).symbol, (heap b).leftStage, (heap b).rightStage, (heap a).operator,
            (heap a).leftTypeCheck, (heap a).rightTypeCheck, (heap a).typeCheck,
            (heap a).typeErrorFormat⟩).store a
          ⟨(heap b).symbol,
            (if a = b then (heap b).leftStage else (heap a).leftStage),
            (if a = b then (heap b).rightStage else (heap a).rightStage),
            (heap b).operator, (heap b).leftTypeCheck, (heap b).rightTypeCheck,
            (heap b).typeCheck, (heap b).typeErrorFormat⟩)) := by
  simp only [swapWith, setToNonStage, StageHeap.store]
  by_cases h : a = b
  · subst h; simp
  · simp [h]

/-- C23: for all stages `a` and `b` (two pointers that are not nil, to
different stages or to the same one), `a.swapWith(b)` returns and exchanges
the symbol, operator, leftTypeCheck, rightTypeCheck, typeCheck and
typeErrorFormat of the two stages, leaves the leftStage and rightStage
children of both, and every other stage, unchanged; applying it twice
restores both stages, and swapping a stage with itself leaves it unchanged. -/
theorem swapWith_exchanges (heap : StageHeap) (a b : Nat) :
    ∃ heap1, swapWith heap (some a) (some b) = .ok heap1 ∧
      ((heap1 a).symbol = (heap b).symbol ∧ (heap1 a).operator = (heap b).operator ∧
        (heap1 a).leftTypeCheck = (heap b).leftTypeCheck ∧
        (heap1 a).rightTypeCheck = (heap b).rightTypeCheck ∧
        (heap1 a).typeCheck = (heap b).typeCheck ∧
        (heap1 a).typeErrorFormat = (heap b).typeErrorFormat) ∧
      ((heap1 b).symbol = (heap a).symbol ∧ (heap1 b).operator = (heap a).operator ∧
        (heap1 b).leftTypeCheck = (heap a).leftTypeCheck ∧
        (heap1 b).rightTypeCheck = (heap a).rightTypeCheck ∧
        (heap1 b).typeCheck = (heap a).typeCheck ∧
        (heap1 b).typeErrorFormat = (heap a).typeErrorFormat) ∧
      ((heap1 a).leftStage = (heap a).leftStage ∧ (heap1 a).rightStage = (heap a).rightStage ∧
        (heap1 b).leftStage = (heap b).leftStage ∧ (heap1 b).rightStage = (heap b).rightStage) ∧
      (∀ c, c ≠ a → c ≠ b → heap1 c = heap c) ∧
      swapWith heap1 (some a) (some b) = .ok heap ∧
      swapWith heap (some a) (some a) = .ok heap := by
  refine ⟨_, swapWith_eq heap a b, ?_, ?_, ?_, ?_, ?_, ?_⟩
  · by_cases h : a = b
    · subst h; simp [StageHeap.store]
    · simp [StageHeap.store, h]
  · by_cases h : a = b
    · subst h; simp [StageHeap.store]
    · have h2 : ¬ b = a := fun e => h e.symm
      simp [StageHeap.store, h2]
  · by_cases h : a = b
    · subst h; simp [StageHeap.store]
    · have h2 : ¬ b = a := fun e => h e.symm
      simp [StageHeap.store, h, h2]
  · intro c hca hcb
    simp [StageHeap.store, hca, hcb]
  · rw [swapWith_eq]
    congr 1
    funext q
    by_cases h : a = b
    · subst h
      by_cases hq : q = a
      · subst hq; simp [StageHeap.store]
      · simp [StageHeap.store, hq]
    · have h2 : ¬ b = a := fun e => h e.symm
      by_cases hq : q = a
      · subst hq; simp [StageHeap.store, h, h2]
      · by_cases hq2 : q = b
        · subst hq2; simp [StageHeap.store, h, h2]
        · simp [StageHeap.store, hq, hq2]
  · rw [swapWith_eq]
    congr 1
    funext q
    by_cases hq : q = a
    · subst hq; simp [StageHeap.store]
    · simp [StageHeap.store, hq]

/-- Witness of C23: an addition at address 0 is swapped with the
multiplication at address 1, which is its right child: the symbols and the
error formats are exchanged, and the children stay where they were. -/
theorem swapWith_exchanges_witness :
    ∃ heap1, swapWith sumOverProduct (some 0) (some 1) = .ok heap1 ∧
      (heap1 0).symbol = .MULTIPLY ∧ (heap1 1).symbol = .PLUS ∧
      (heap1 0).rightStage = some 1 ∧ (heap1 1).rightStage = none ∧
      (heap1 0).typeErrorFormat = "times" ∧ (heap1 1).typeErrorFormat = "plus" := by
  obtain ⟨heap1, h, ha, hb, hc, _⟩ := swapWith_exchanges sumOverProduct 0 1
  exact ⟨heap1, h, ha.1, hb.1, hc.2.1, hc.2.2.2, ha.2.2.2.2.2, hb.2.2.2.2.2⟩

end Govaluate
